import Mathlib

/-!
# Verification of the jacobQWQbot trading engine core

Shallow embedding of the engine's core components — the priority-ordered
event queue (`model.PriorityQueue`), the position/PnL ledger
(`order.Position.Update`, `order.summary`, `order.Controller`), the CSV
historical feed and its resampler (`exchange.CSVFeed`), and the simulated
matching engine (`exchange.PaperWallet`) — together with theorems checking
the specification's claims against this code.

Conventions used throughout:
* Go `float64` values are embedded as `ℚ` (the code only uses `+ - * /`,
  `math.Min/Max/Abs` and comparisons on them).
* Go `time.Time` values are embedded as `ℤ` unix seconds; a
  `time.Duration` is the corresponding difference in seconds.
* A Go map with value type `V` read with its zero-value default is
  embedded as a total function with an explicit default; maps whose key
  set matters (iteration / presence tests) carry an explicit key list or
  use `Option`.
* Fallible operations return `Option`/`Except` or a `_ × Option error`
  pair mirroring Go's multiple return values.
-/

set_option linter.unusedSectionVars false

namespace JacobBot

/-! ## Part 1 — the ordered event queue

Embeds `PriorityQueue` from `src/storage/storage.go` (package `model`):
a binary min-heap stored in a slice `data` with an explicit `length`
that equals `len(data)` after every public operation, and a comparator
`Less`.  The comparator contract (candles are ordered by the linear
lexicographic key (time, update-time, pair), `Candle.Less` in
`src/model/order.go`) is embedded by a `LinearOrder` on the element
type, with `Less a b := a < b`.  The queue state is the backing list. -/

namespace PQ

variable {α : Type} [Inhabited α] [LinearOrder α]

/-- Go's `data[i]` (reads during sifting are always in bounds;
out-of-bounds reads yield the default, mirroring a Go zero value). -/
def nth (l : List α) (i : Nat) : α := l.getD i default

/-- The `best` child index computed at the top of each `down` iteration:
`left`, or `right` when `right` is in range and strictly smaller. -/
def bestChild (len : Nat) (data : List α) (pos : Nat) : Nat :=
  if 2 * pos + 2 < len ∧ nth data (2 * pos + 2) < nth data (2 * pos + 1)
  then 2 * pos + 2 else 2 * pos + 1

/-- `(*PriorityQueue).down`: iterative sift-down holding the moved item
outside the array.  `len` is `q.length`, `pos` the current hole, `item`
the value `data[pos]` held at entry. -/
def down (len : Nat) (item : α) (data : List α) (pos : Nat) : List α :=
  if hpos : pos < len / 2 then
    if ¬ nth data (bestChild len data pos) < item then data.set pos item
    else down len item (data.set pos (nth data (bestChild len data pos))) (bestChild len data pos)
  else data.set pos item
termination_by len - pos
decreasing_by
  have : pos < bestChild len data pos := by unfold bestChild; split <;> omega
  omega

/-- `(*PriorityQueue).up`: iterative sift-up holding the moved item
outside the array (`parent := (pos-1)/2`, `current := data[parent]`). -/
def up (item : α) (data : List α) (pos : Nat) : List α :=
  if hpos : 0 < pos then
    if ¬ item < nth data ((pos - 1) / 2) then data.set pos item
    else up item (data.set pos (nth data ((pos - 1) / 2))) ((pos - 1) / 2)
  else data.set pos item
termination_by pos
decreasing_by omega

/-- `(*PriorityQueue).Push`: append the new item and sift it up from the
last index (`q.up(q.length - 1)` reads the item from the array). -/
def push (l : List α) (x : α) : List α :=
  up (nth (l ++ [x]) l.length) (l ++ [x]) l.length

/-- `(*PriorityQueue).Pop`: return `nil` on an empty queue; otherwise
save the root, decrement the length, move `q.data[q.length-1]` to the
root (note the index: with `q.length` already decremented this is the
*second-to-last* element of the original slice), sift down, and truncate
to the new length. -/
def pop (l : List α) : Option α × List α :=
  if l.length = 0 then (none, l)
  else
    let top := nth l 0
    let n := l.length - 1
    if 0 < n then
      let d := l.set 0 (nth l (n - 1))
      (some top, (down n (nth d 0) d 0).take n)
    else (some top, l.take n)

/-- `(*PriorityQueue).Peek`: the root, non-destructively; `nil` if empty. -/
def peek (l : List α) : Option α := if l.length = 0 then none else some (nth l 0)

/-- `(*PriorityQueue).Len`. -/
def lenQ (l : List α) : Nat := l.length

/-- The binary-heap invariant: every child is at least its parent. -/
def heap (l : List α) : Prop :=
  ∀ c, c < l.length → 0 < c → nth l ((c - 1) / 2) ≤ nth l c

instance heapDecidable (l : List α) : Decidable (heap l) := by
  unfold heap; infer_instance

/-! ### The heap invariant is restored by sift-up -/

/-- Invariant of the `up` loop: the hole `pos` is in bounds, all
parent/child edges not touching the hole are ordered, the children of
the hole dominate the moved item, and the children of the hole dominate
the hole's parent. -/
def UpInv (item : α) (data : List α) (pos : Nat) : Prop :=
  pos < data.length ∧
  (∀ c, c < data.length → 0 < c → c ≠ pos → (c - 1) / 2 ≠ pos →
    nth data ((c - 1) / 2) ≤ nth data c) ∧
  (∀ c, c < data.length → 0 < c → (c - 1) / 2 = pos → item ≤ nth data c) ∧
  (0 < pos → ∀ c, c < data.length → 0 < c → (c - 1) / 2 = pos →
    nth data ((pos - 1) / 2) ≤ nth data c)

/-! ### The heap invariant is restored by sift-down -/

/-- The heap condition restricted to the first `len` positions (the live
prefix of the backing slice during `Pop`, before truncation). -/
def heapUpTo (len : Nat) (l : List α) : Prop :=
  ∀ c, c < len → 0 < c → nth l ((c - 1) / 2) ≤ nth l c

/-- Invariant of the `down` loop: the live region covers `len` entries
of the slice, the hole `pos` is live, all live edges not leaving the
hole are ordered, the hole's parent is at most the moved item, and the
hole's parent is at most the hole's children. -/
def DownInv (len : Nat) (item : α) (data : List α) (pos : Nat) : Prop :=
  len ≤ data.length ∧ pos < len ∧
  (∀ c, c < len → 0 < c → c ≠ pos → (c - 1) / 2 ≠ pos →
    nth data ((c - 1) / 2) ≤ nth data c) ∧
  (0 < pos → nth data ((pos - 1) / 2) ≤ item) ∧
  (0 < pos → ∀ c, c < len → 0 < c → (c - 1) / 2 = pos →
    nth data ((pos - 1) / 2) ≤ nth data c)

/-! ### Streams of operations -/

/-- Queue built by pushing a list of items into an empty queue. -/
def pushAll (xs : List α) : List α := xs.foldl push []

/-- The sequence of elements returned by popping `fuel` times. -/
def popAllFuel : Nat → List α → List α
  | 0, _ => []
  | fuel + 1, l =>
    match pop l with
    | (none, _) => []
    | (some a, next) => a :: popAllFuel fuel next

/-- The sequence of elements returned by draining the queue. -/
def popAll (l : List α) : List α := popAllFuel (lenQ l) l

/-- A call against the queue: `Push` with a given element, or `Pop`. -/
inductive QOp (α : Type) where
  | push (x : α) : QOp α
  | pop : QOp α

/-- Run a sequence of queue calls from a given state, counting the pops
that returned an element (a `Pop` on an empty queue returns the `nil`
sentinel and is not counted). -/
def runQOps (start : List α × Nat) : List (QOp α) → List α × Nat
  | [] => start
  | op :: ops =>
    match op with
    | QOp.push x => runQOps (push start.1 x, start.2) ops
    | QOp.pop =>
      match pop start.1 with
      | (none, next) => runQOps (next, start.2) ops
      | (some _, next) => runQOps (next, start.2 + 1) ops

/-- Number of `Push` calls in a sequence. -/
def numPushes : List (QOp α) → Nat
  | [] => 0
  | QOp.push _ :: ops => numPushes ops + 1
  | QOp.pop :: ops => numPushes ops

end PQ

/-! ## Part 2 — shared model types (package `model`, `src/model/order.go`)

`float64` fields are embedded as `ℚ`, `time.Time` fields as `ℤ` unix
seconds, `*float64`/`*int64` pointer fields as `Option`.  The unused
embedded `Candle` field of `Order` is omitted. -/

inductive SideType where
  | buy
  | sell
deriving DecidableEq

inductive OrderType where
  | limit
  | market
  | limitMaker
  | stopLoss
  | stopLossLimit
  | takeProfit
  | takeProfitLimit
deriving DecidableEq

inductive OrderStatusType where
  | new
  | partiallyFilled
  | filled
  | canceled
  | pendingCancel
  | rejected
  | expired
deriving DecidableEq

structure Order where
  id : ℤ
  exchangeID : ℤ
  pair : String
  side : SideType
  type : OrderType
  status : OrderStatusType
  price : ℚ
  quantity : ℚ
  createdAt : ℤ
  updatedAt : ℤ
  stop : Option ℚ
  groupID : Option ℤ
  refPrice : ℚ
  profit : ℚ
  profitValue : ℚ
deriving DecidableEq

/-! ## Part 3 — position / PnL ledger (package `order`, `src/unnamed/part_009`) -/

namespace Ledger

/-- `order.Result`. -/
structure Result where
  pair : String
  profitPercent : ℚ
  profitValue : ℚ
  side : SideType
  duration : ℤ
  createdAt : ℤ
deriving DecidableEq

/-- `order.Position`. -/
structure Position where
  side : SideType
  avgPrice : ℚ
  quantity : ℚ
  createdAt : ℤ
deriving DecidableEq

/-- `(*Position).Update`.  The Go method mutates the receiver and the
order's transient `Profit`/`ProfitValue` fields (which receive exactly
the values stored in the returned `Result`) and returns
`(result, finished)`; here the mutated position is returned alongside.
A nil `order.Stop` dereference is embedded as reading `0`. -/
def Position.update (p : Position) (o : Order) : Position × Option Result × Bool :=
  let price := if o.type = OrderType.stopLoss ∨ o.type = OrderType.stopLossLimit
    then o.stop.getD 0 else o.price
  if p.side = o.side then
    (⟨p.side,
      (p.avgPrice * p.quantity + price * o.quantity) / (p.quantity + o.quantity),
      p.quantity + o.quantity, p.createdAt⟩, none, false)
  else
    let finished := p.quantity = o.quantity
    let p' : Position :=
      if p.quantity = o.quantity then p
      else if p.quantity > o.quantity then
        ⟨p.side, p.avgPrice, p.quantity - o.quantity, p.createdAt⟩
      else
        ⟨o.side, price, o.quantity - p.quantity, o.createdAt⟩
    -- the remaining statements read the already-mutated receiver `p'`
    let quantity := min p'.quantity o.quantity
    let profit := (price - p'.avgPrice) / p'.avgPrice
    let profitValue := (price - p'.avgPrice) * quantity
    let result : Result :=
      ⟨o.pair, profit, profitValue, p'.side, o.createdAt - p'.createdAt, o.createdAt⟩
    (p', some result, decide finished)

/-- `order.summary`. -/
structure Summary where
  pair : String
  winLong : List ℚ
  winLongPercent : List ℚ
  winShort : List ℚ
  winShortPercent : List ℚ
  loseLong : List ℚ
  loseLongPercent : List ℚ
  loseShort : List ℚ
  loseShortPercent : List ℚ
  volume : ℚ
deriving DecidableEq

instance : Inhabited Summary := ⟨⟨"", [], [], [], [], [], [], [], [], 0⟩⟩

/-- `summary.Win`. -/
def Summary.win (s : Summary) : List ℚ := s.winLong ++ s.winShort

/-- `summary.WinPercent`. -/
def Summary.winPercent (s : Summary) : List ℚ := s.winLongPercent ++ s.winShortPercent

/-- `summary.Lose`. -/
def Summary.lose (s : Summary) : List ℚ := s.loseLong ++ s.loseShort

/-- `summary.LosePercent`. -/
def Summary.losePercent (s : Summary) : List ℚ := s.loseLongPercent ++ s.loseShortPercent

/-- `summary.Profit`: fold `profit += value` over `append(Win(), Lose())`. -/
def Summary.profit (s : Summary) : ℚ := (s.win ++ s.lose).foldl (· + ·) 0

/-- `summary.WinPercentage`. -/
def Summary.winPercentage (s : Summary) : ℚ :=
  if s.win.length + s.lose.length = 0 then 0
  else (s.win.length : ℚ) / ((s.win.length : ℚ) + (s.lose.length : ℚ)) * 100

/-- `summary.Payoff`: mean winning percent over |mean losing percent|. -/
def Summary.payoff (s : Summary) : ℚ :=
  let avgWin : ℚ := s.winPercent.foldl (· + ·) 0
  let avgLose : ℚ := s.losePercent.foldl (· + ·) 0
  if s.win.length = 0 ∨ s.lose.length = 0 ∨ avgLose = 0 then 0
  else (avgWin / (s.win.length : ℚ)) / |avgLose / (s.lose.length : ℚ)|

/-- `summary.ProfitFactor`: Σ winning percent over |Σ losing percent|. -/
def Summary.profitFactor (s : Summary) : ℚ :=
  if s.lose.length = 0 then 0
  else (s.winPercent.foldl (· + ·) 0) / |s.losePercent.foldl (· + ·) 0|

/-- The slice of `order.Controller` state that order processing touches:
`Results` and `position` are Go maps from pair to pointers (presence
matters, so they are embedded with `Option`), `lastPrice` is a map of
plain `float64` values read with zero default. -/
structure Controller where
  results : String → Option Summary
  lastPrice : String → ℚ
  position : String → Option Position

/-- Update one key of an embedded Go map. -/
def mapSet {β : Type} (m : String → Option β) (k : String) (v : Option β) :
    String → Option β :=
  fun q => if q = k then v else m q

/-- `(*Controller).updatePosition`: create the position on first fill;
otherwise run `Position.Update`, delete the position if it finished,
and — when a `Result` was produced — only notify (the comment in the
source describes accruing the result into the summary's win/lose
buckets, but no such code exists; see C2).  The produced `Result` is
returned so the claims can quantify over emitted results. -/
def Controller.updatePosition (c : Controller) (o : Order) : Controller × Option Result :=
  match c.position o.pair with
  | none =>
    ({ c with position :=
        (mapSet c.position o.pair (some ⟨o.side, o.price, o.quantity, o.createdAt⟩)) },
      none)
  | some p =>
    let res := p.update o
    let c' :=
      if res.2.2 then { c with position := mapSet c.position o.pair none }
      else { c with position := mapSet c.position o.pair (some res.1) }
    (c', res.2.1)

/-- `(*Controller).processTrade`: ignore non-filled orders, initialise
the pair's summary if needed, accrue `Price*Quantity` into its traded
volume, then route the fill through `updatePosition`. -/
def Controller.processTrade (c : Controller) (o : Order) : Controller × Option Result :=
  if o.status ≠ OrderStatusType.filled then (c, none)
  else
    let c₁ :=
      match c.results o.pair with
      | none =>
        { c with results :=
            (mapSet c.results o.pair (some ⟨o.pair, [], [], [], [], [], [], [], [], 0⟩)) }
      | some _ => c
    let s := (c₁.results o.pair).getD default
    let c₂ :=
      { c₁ with results :=
          (mapSet c₁.results o.pair (some { s with volume := s.volume + o.price * o.quantity })) }
    c₂.updatePosition o

/-- The empty controller state (`NewController`). -/
def Controller.empty : Controller := ⟨fun _ => none, fun _ => 0, fun _ => none⟩

end Ledger

/-! ## Part 4 — historical CSV feed and resampler
(`src/exchange/exchange.go`: `parseHeaders`, `NewCSVFeed`,
`isFistCandlePeriod`, `isLastCandlePeriod`, `CSVFeed.resample`) -/

namespace Feed

/-- `model.Candle` (`src/model/order.go`).  Go's `Open` field is
renamed `openP` (`open` is a Lean keyword); the per-bar `Metadata` map
is embedded as an association list in insertion order. -/
structure Candle where
  pair : String
  time : ℤ
  updatedAt : ℤ
  openP : ℚ
  close : ℚ
  low : ℚ
  high : ℚ
  volume : ℚ
  complete : Bool
  metadata : List (String × ℚ)
deriving DecidableEq

/-- `time.Time.Second()` of a unix-seconds instant (UTC). -/
def second (t : ℤ) : ℤ := t.emod 60

/-- `time.Time.Minute()` of a unix-seconds instant (UTC). -/
def minute (t : ℤ) : ℤ := (t.ediv 60).emod 60

/-- `time.Time.Hour()` of a unix-seconds instant (UTC). -/
def hour (t : ℤ) : ℤ := (t.ediv 3600).emod 24

/-- `time.Time.Weekday()` of a unix-seconds instant (UTC);
`0 = Sunday` (the unix epoch was a Thursday, weekday 4). -/
def weekday (t : ℤ) : ℤ := (t.ediv 86400 + 4).emod 7

/-- `str2duration.ParseDuration` (external library), modelled for the
timeframe tokens this feed understands, in seconds. -/
def parseDuration : String → Option ℤ
  | "1m" => some 60
  | "5m" => some 300
  | "10m" => some 600
  | "15m" => some 900
  | "30m" => some 1800
  | "1h" => some 3600
  | "2h" => some 7200
  | "4h" => some 14400
  | "12h" => some 43200
  | "1d" => some 86400
  | "1w" => some 604800
  | _ => none

/-- `isLastCandlePeriod`: does the *next* source timestamp start a new
target period?  Granularity-specific modulo arithmetic on the
minutes/hours/weekday of `t + fromDuration`. -/
def isLastCandlePeriod (t : ℤ) (fromTf targetTf : String) : Except String Bool :=
  if fromTf = targetTf then Except.ok true
  else
    match parseDuration fromTf with
    | none => Except.error "invalid duration"
    | some fromDuration =>
      let next := t + fromDuration
      match targetTf with
      | "1m" => Except.ok (decide (second next % 60 = 0))
      | "5m" => Except.ok (decide (minute next % 5 = 0))
      | "10m" => Except.ok (decide (minute next % 10 = 0))
      | "15m" => Except.ok (decide (minute next % 15 = 0))
      | "30m" => Except.ok (decide (minute next % 30 = 0))
      | "1h" => Except.ok (decide (minute next % 60 = 0))
      | "2h" => Except.ok (decide (minute next = 0 ∧ hour next % 2 = 0))
      | "4h" => Except.ok (decide (minute next = 0 ∧ hour next % 4 = 0))
      | "12h" => Except.ok (decide (minute next = 0 ∧ hour next % 12 = 0))
      | "1d" => Except.ok (decide (minute next = 0 ∧ hour next % 24 = 0))
      | "1w" => Except.ok (decide (minute next = 0 ∧ hour next % 24 = 0 ∧ weekday next = 0))
      | _ => Except.error ("invalid timeframe: " ++ targetTf)

/-- `isFistCandlePeriod` (sic): is `t` the first source instant of a
target period, i.e. is `t - fromDuration` the last instant of one? -/
def isFistCandlePeriod (t : ℤ) (fromTf targetTf : String) : Except String Bool :=
  match parseDuration fromTf with
  | none => Except.error "invalid duration"
  | some fromDuration => isLastCandlePeriod (t - fromDuration) fromTf targetTf

/-- The skip-forward loop at the top of `resample`: drop source bars
until one starts a target period. -/
def skipToFirst (fromTf targetTf : String) : List Candle → Except String (List Candle)
  | [] => Except.ok []
  | c :: rest =>
    match isFistCandlePeriod c.time fromTf targetTf with
    | Except.error e => Except.error e
    | Except.ok true => Except.ok (c :: rest)
    | Except.ok false => skipToFirst fromTf targetTf rest

/-- The merge loop of `resample`.  Each source bar is tagged complete
or not; when the previously appended bar is incomplete the current bar
absorbs its start time, open, running max high / min low and
accumulated volume.  NOTE: the source then appends the merged bar
*unconditionally* (`candles = append(candles, candle)`), so every
partial accumulation stays in the output next to the bar that absorbed
it. -/
def mergeLoop (fromTf targetTf : String) (acc : List Candle) :
    List Candle → Except String (List Candle)
  | [] => Except.ok acc
  | c :: rest =>
    match isLastCandlePeriod c.time fromTf targetTf with
    | Except.error e => Except.error e
    | Except.ok last =>
      let c₁ : Candle := { c with complete := last }
      let c₂ : Candle :=
        match acc.getLast? with
        | some prev =>
          if prev.complete then c₁
          else
            { c₁ with
              time := prev.time
              openP := prev.openP
              high := max prev.high c₁.high
              low := min prev.low c₁.low
              volume := c₁.volume + prev.volume }
        | none => c₁
      mergeLoop fromTf targetTf (acc ++ [c₂]) rest

/-- `CSVFeed.resample` on the source bars of one pair: skip to the
first aligned bar, merge, then drop a single trailing incomplete bar
(`candles[len(candles)-1]`; Go would panic on an empty slice — that
case is embedded as returning the empty list). -/
def resampleCandles (fromTf targetTf : String) (src : List Candle) :
    Except String (List Candle) :=
  match skipToFirst fromTf targetTf src with
  | Except.error e => Except.error e
  | Except.ok aligned =>
    match mergeLoop fromTf targetTf [] aligned with
    | Except.error e => Except.error e
    | Except.ok candles =>
      match candles.getLast? with
      | none => Except.ok candles
      | some last => Except.ok (if last.complete then candles else candles.dropLast)

/-- Decimal digit-string recogniser (empty and non-digit input fail). -/
def digitsToNat : List Char → Option Nat
  | [] => none
  | cs => cs.foldlM
      (fun acc c => if c.isDigit then some (acc * 10 + (c.toNat - 48)) else none) 0

/-- `strconv.Atoi`: an optionally signed decimal integer. -/
def Atoi (s : String) : Option ℤ :=
  match s.data with
  | '-' :: rest => (digitsToNat rest).map (fun n => -(n : ℤ))
  | '+' :: rest => (digitsToNat rest).map (fun n => (n : ℤ))
  | cs => (digitsToNat cs).map (fun n => (n : ℤ))

/-- `strconv.ParseFloat`, modelled for plain decimal literals
`[-]digits[.digits]` (the grammar the historical CSV files use). -/
def parseFloatQ (s : String) : Option ℚ :=
  let signAndBody : ℚ × List Char :=
    match s.data with
    | '-' :: rest => (-1, rest)
    | cs => (1, cs)
  match signAndBody.2.splitOn '.' with
  | [intPart] => (digitsToNat intPart).map (fun n => signAndBody.1 * (n : ℚ))
  | [intPart, fracPart] =>
    match digitsToNat intPart, digitsToNat fracPart with
    | some n, some f =>
      some (signAndBody.1 * ((n : ℚ) + (f : ℚ) / ((10 : ℚ) ^ fracPart.length)))
    | _, _ => none
  | _ => none

/-- Update one key of the embedded header map. -/
def hmapSet (m : String → Option Nat) (k : String) (v : Nat) : String → Option Nat :=
  fun q => if q = k then some v else m q

/-- The literal `headerMap` the source starts from: the well-known
column order. -/
def baseHeaderMap : String → Option Nat := fun h =>
  if h = "time" then some 0
  else if h = "open" then some 1
  else if h = "close" then some 2
  else if h = "low" then some 3
  else if h = "high" then some 4
  else if h = "volume" then some 5
  else none

/-- `parseHeaders`: if the first token is numeric the file is headerless
and the well-known order is kept (`ok = false`); otherwise every header
is assigned its actual index, headers outside the well-known six are
collected as `additional`. -/
def parseHeaders (headers : List String) :
    (String → Option Nat) × List String × Bool :=
  if (Atoi (headers.getD 0 "")).isSome then (baseHeaderMap, [], false)
  else
    let r := headers.enum.foldl
      (fun (acc : (String → Option Nat) × List String) ih =>
        let idx := ih.1
        let h := ih.2
        let additional := if (acc.1 h).isNone then acc.2 ++ [h] else acc.2
        (hmapSet acc.1 h idx, additional))
      (baseHeaderMap, [])
    (r.1, r.2, true)

/-- The per-row conversion loop of `NewCSVFeed`: look the `time` and
`open` columns up by name and parse them; the `close`, `low`, `high`
and `volume` parses are **absent from the source** (a comment
"重复上述过程解析close, low, high, volume等字段" stands where that code
would be), so those fields keep their zero values; extra named columns
are parsed into the per-bar metadata.  HeikinAshi conversion is off. -/
def lineToCandle (pair : String) (headerMap : String → Option Nat)
    (additionalHeaders : List String) (hasCustomHeaders : Bool)
    (line : List String) : Option Candle := do
  let timestamp ← Atoi (line.getD ((headerMap "time").getD 0) "")
  let openV ← parseFloatQ (line.getD ((headerMap "open").getD 0) "")
  let metadata ←
    if hasCustomHeaders then
      additionalHeaders.foldlM (fun acc h => do
        let v ← parseFloatQ (line.getD ((headerMap h).getD 0) "")
        pure (acc ++ [(h, v)])) ([] : List (String × ℚ))
    else pure []
  pure ⟨pair, timestamp, timestamp, openV, 0, 0, 0, 0, true, metadata⟩

/-- The candle list `NewCSVFeed` builds for one pair from the parsed
CSV rows (before resampling). -/
def newCSVFeedCandles (pair : String) (csvLines : List (List String)) :
    Option (List Candle) :=
  let r := parseHeaders (csvLines.getD 0 [])
  let rows := if r.2.2 then csvLines.drop 1 else csvLines
  rows.foldlM
    (fun acc line =>
      (lineToCandle pair r.1 r.2.1 r.2.2 line).map (fun c => acc ++ [c]))
    ([] : List Candle)

end Feed

/-! ## Part 5 — simulated matching engine
(`exchange.PaperWallet`, `src/exchange/paperwallet.go`; error values
from `src/exchange/exchange.go`) -/

namespace Wallet

/-- `exchange.assetInfo`: per-asset free/locked balances. -/
structure AssetInfoW where
  free : ℚ
  lock : ℚ
deriving DecidableEq

/-- `exchange.AssetValue`: a timestamped equity sample. -/
structure AssetValue where
  time : ℤ
  value : ℚ
deriving DecidableEq

/-- The package-level error sentinels of `exchange`
(`ErrInvalidQuantity`, `ErrInsufficientFunds`, `ErrInvalidAsset`). -/
inductive BaseErr where
  | invalidQuantity
  | insufficientFunds
  | invalidAsset
deriving DecidableEq

/-- `exchange.OrderError`: a typed order error carrying the wrapped
sentinel, the pair and the requested quantity. -/
structure OrderError where
  err : BaseErr
  pair : String
  quantity : ℚ
deriving DecidableEq

/-- The `error` results an order-creation method can produce: the plain
`ErrInvalidQuantity` sentinel or a `*OrderError`. -/
inductive WalletErr where
  | invalidQuantity
  | orderError (e : OrderError)
deriving DecidableEq

instance : Inhabited Order :=
  ⟨⟨0, 0, "", SideType.buy, OrderType.market, OrderStatusType.new,
    0, 0, 0, 0, none, none, 0, 0, 0⟩⟩

/-- The zero `model.Candle` a Go map read returns for an absent pair. -/
def zeroCandle : Feed.Candle := ⟨"", 0, 0, 0, 0, 0, 0, 0, false, []⟩

/-- `exchange.PaperWallet`.  Go maps with zero-value reads are embedded
as total functions; `assetsKeys` carries the key set of the `assets`
map (in insertion order) for the equity iteration, and
`fistCandleKeys` the key set of `fistCandle` for its presence test. -/
structure PaperWallet where
  baseCoin : String
  counter : ℤ
  orders : List Order
  assetsKeys : List String
  assets : String → AssetInfoW
  avgShortPrice : String → ℚ
  avgLongPrice : String → ℚ
  volume : String → ℚ
  lastCandle : String → Feed.Candle
  fistCandleKeys : List String
  fistCandle : String → Feed.Candle
  assetValues : String → List AssetValue
  equityValues : List AssetValue

/-- Update one key of an embedded balance map. -/
def aset (m : String → AssetInfoW) (k : String) (v : AssetInfoW) : String → AssetInfoW :=
  fun q => if q = k then v else m q

/-- Update one key of an embedded `float64` map. -/
def qset (m : String → ℚ) (k : String) (v : ℚ) : String → ℚ :=
  fun q => if q = k then v else m q

/-- Update one key of an embedded candle map. -/
def cset (m : String → Feed.Candle) (k : String) (v : Feed.Candle) :
    String → Feed.Candle :=
  fun q => if q = k then v else m q

/-- `if _, ok := p.assets[k]; !ok { p.assets[k] = &assetInfo{} }`:
record the key; the zero-value entry itself is the total function's
default, so balances are untouched. -/
def ensureAsset (w : PaperWallet) (k : String) : PaperWallet :=
  if k ∈ w.assetsKeys then w else { w with assetsKeys := w.assetsKeys ++ [k] }

/-- `(*PaperWallet).ID()`: increment and return the order-id counter. -/
def nextID (w : PaperWallet) : PaperWallet × ℤ :=
  ({ w with counter := w.counter + 1 }, w.counter + 1)

variable (saq : String → String × String)

/-- `(*PaperWallet).updateAveragePrice`: the four holding/side cases
(`SplitAssetQuote` is the process-wide pair table, passed as `saq`).
The logged profit values have no state effect. -/
def updateAveragePrice (w : PaperWallet) (side : SideType) (pair : String)
    (amount value : ℚ) : PaperWallet :=
  let asset := (saq pair).1
  let actualQty := (w.assets asset).free
  if actualQty = 0 then
    if side = SideType.buy then
      { w with avgLongPrice := qset w.avgLongPrice pair value }
    else
      { w with avgShortPrice := qset w.avgShortPrice pair value }
  else if actualQty > 0 ∧ side = SideType.buy then
    { w with avgLongPrice := (qset w.avgLongPrice pair
        ((w.avgLongPrice pair * actualQty + amount * value) / (actualQty + amount))) }
  else if actualQty > 0 ∧ side = SideType.sell then
    if amount ≤ actualQty then w
    else { w with avgShortPrice := qset w.avgShortPrice pair value }
  else if actualQty < 0 ∧ side = SideType.sell then
    { w with avgShortPrice := (qset w.avgShortPrice pair
        ((w.avgShortPrice pair * (-actualQty) + amount * value) / (-actualQty + amount))) }
  else if actualQty < 0 ∧ side = SideType.buy then
    if amount ≤ -actualQty then w
    else { w with avgLongPrice := qset w.avgLongPrice pair value }
  else w

/-- `(*PaperWallet).validateFunds`: fund admission and reservation.
Returns the updated wallet plus the Go `error` result. -/
def validateFunds (w₀ : PaperWallet) (side : SideType) (pair : String)
    (amount value : ℚ) (fill : Bool) : PaperWallet × Option OrderError :=
  let asset := (saq pair).1
  let quote := (saq pair).2
  let w := ensureAsset (ensureAsset w₀ asset) quote
  let funds := (w.assets quote).free
  if side = SideType.sell then
    let funds := if (w.assets asset).free > 0
      then funds + (w.assets asset).free * value else funds
    if funds < amount * value then
      (w, some ⟨BaseErr.insufficientFunds, pair, amount⟩)
    else
      let lockedAsset := min (max (w.assets asset).free 0) amount
      let lockedQuote := (amount - lockedAsset) * value
      let a₁ := aset w.assets asset
        ⟨(w.assets asset).free - lockedAsset, (w.assets asset).lock⟩
      let w₁ := { w with assets :=
        (aset a₁ quote ⟨(a₁ quote).free - lockedQuote, (a₁ quote).lock⟩) }
      if fill then
        let w₂ := updateAveragePrice saq w₁ side pair amount value
        if lockedQuote > 0 then
          ({ w₂ with assets :=
            (aset w₂.assets asset
              ⟨(w₂.assets asset).free - amount, (w₂.assets asset).lock⟩) }, none)
        else
          ({ w₂ with assets :=
            (aset w₂.assets quote
              ⟨(w₂.assets quote).free + amount * value, (w₂.assets quote).lock⟩) }, none)
      else
        let a₂ := aset w₁.assets asset
          ⟨(w₁.assets asset).free, (w₁.assets asset).lock + lockedAsset⟩
        ({ w₁ with assets :=
          (aset a₂ quote ⟨(a₂ quote).free, (a₂ quote).lock + lockedQuote⟩) }, none)
  else
    let liquidShortValue :=
      if (w.assets asset).free < 0 then
        2 * |(w.assets asset).free| * w.avgShortPrice pair
          - |(w.assets asset).free| * value
      else 0
    let funds := if (w.assets asset).free < 0 then funds + liquidShortValue else funds
    let amountToBuy :=
      if (w.assets asset).free < 0 then amount + (w.assets asset).free else amount
    if funds < amountToBuy * value then
      (w, some ⟨BaseErr.insufficientFunds, pair, amount⟩)
    else
      let lockedAsset := min (-(min (w.assets asset).free 0)) amount
      let lockedQuote := (amount - lockedAsset) * value - liquidShortValue
      let a₁ := aset w.assets asset
        ⟨(w.assets asset).free + lockedAsset, (w.assets asset).lock⟩
      let w₁ := { w with assets :=
        (aset a₁ quote ⟨(a₁ quote).free - lockedQuote, (a₁ quote).lock⟩) }
      if fill then
        let w₂ := updateAveragePrice saq w₁ side pair amount value
        ({ w₂ with assets :=
          (aset w₂.assets asset
            ⟨(w₂.assets asset).free + (amount - lockedAsset),
              (w₂.assets asset).lock⟩) }, none)
      else
        let a₂ := aset w₁.assets asset
          ⟨(w₁.assets asset).free, (w₁.assets asset).lock + lockedAsset⟩
        ({ w₁ with assets :=
          (aset a₂ quote ⟨(a₂ quote).free, (a₂ quote).lock + lockedQuote⟩) }, none)

/-- `(*PaperWallet).CreateOrderOCO`: reject a zero quantity, validate
funds, then append a limit-maker leg and a stop-loss leg sharing one
fresh group id. -/
def createOrderOCO (w : PaperWallet) (side : SideType) (pair : String)
    (size price stop stopLimit : ℚ) : PaperWallet × Except WalletErr (List Order) :=
  if size = 0 then (w, Except.error WalletErr.invalidQuantity)
  else
    match validateFunds saq w side pair size price false with
    | (w₁, some e) => (w₁, Except.error (WalletErr.orderError e))
    | (w₁, none) =>
      let r₁ := nextID w₁
      let groupID := r₁.2
      let r₂ := nextID r₁.1
      let limitMaker : Order :=
        ⟨0, r₂.2, pair, side, OrderType.limitMaker, OrderStatusType.new,
          price, size, (w₁.lastCandle pair).time, (w₁.lastCandle pair).time,
          none, some groupID, (w₁.lastCandle pair).close, 0, 0⟩
      let r₃ := nextID r₂.1
      let stopOrder : Order :=
        ⟨0, r₃.2, pair, side, OrderType.stopLoss, OrderStatusType.new,
          stopLimit, size, (w₁.lastCandle pair).time, (w₁.lastCandle pair).time,
          some stop, some groupID, (w₁.lastCandle pair).close, 0, 0⟩
      ({ r₃.1 with orders := r₃.1.orders ++ [limitMaker, stopOrder] },
        Except.ok [limitMaker, stopOrder])

/-- `(*PaperWallet).CreateOrderLimit`. -/
def createOrderLimit (w : PaperWallet) (side : SideType) (pair : String)
    (size limit : ℚ) : PaperWallet × Except WalletErr Order :=
  if size = 0 then (w, Except.error WalletErr.invalidQuantity)
  else
    match validateFunds saq w side pair size limit false with
    | (w₁, some e) => (w₁, Except.error (WalletErr.orderError e))
    | (w₁, none) =>
      let r := nextID w₁
      let order : Order :=
        ⟨0, r.2, pair, side, OrderType.limit, OrderStatusType.new,
          limit, size, (w₁.lastCandle pair).time, (w₁.lastCandle pair).time,
          none, none, 0, 0, 0⟩
      ({ r.1 with orders := r.1.orders ++ [order] }, Except.ok order)

/-- `(*PaperWallet).CreateOrderStop`: always a sell stop-loss-limit
order whose price and stop are both the given limit. -/
def createOrderStop (w : PaperWallet) (pair : String) (size limit : ℚ) :
    PaperWallet × Except WalletErr Order :=
  if size = 0 then (w, Except.error WalletErr.invalidQuantity)
  else
    match validateFunds saq w SideType.sell pair size limit false with
    | (w₁, some e) => (w₁, Except.error (WalletErr.orderError e))
    | (w₁, none) =>
      let r := nextID w₁
      let order : Order :=
        ⟨0, r.2, pair, SideType.sell, OrderType.stopLossLimit, OrderStatusType.new,
          limit, size, (w₁.lastCandle pair).time, (w₁.lastCandle pair).time,
          some limit, none, 0, 0, 0⟩
      ({ r.1 with orders := r.1.orders ++ [order] }, Except.ok order)

/-- `(*PaperWallet).createOrderMarket` (used by `CreateOrderMarket` and
`CreateOrderMarketQuote`): validate with `fill = true` at the last
close, accrue the traded volume and append an already-filled order. -/
def createOrderMarket (w : PaperWallet) (side : SideType) (pair : String)
    (size : ℚ) : PaperWallet × Except WalletErr Order :=
  if size = 0 then (w, Except.error WalletErr.invalidQuantity)
  else
    match validateFunds saq w side pair size ((w.lastCandle pair).close) true with
    | (w₁, some e) => (w₁, Except.error (WalletErr.orderError e))
    | (w₁, none) =>
      let w₂ := { w₁ with volume :=
        (qset w₁.volume pair (w₁.volume pair + (w₁.lastCandle pair).close * size)) }
      let r := nextID w₂
      let order : Order :=
        ⟨0, r.2, pair, side, OrderType.market, OrderStatusType.filled,
          (w₂.lastCandle pair).close, size, (w₂.lastCandle pair).time,
          (w₂.lastCandle pair).time, none, none, 0, 0, 0⟩
      ({ r.1 with orders := r.1.orders ++ [order] }, Except.ok order)

/-- The OCO sibling cancellation inside the sell fill branch of
`OnCandle`: the first other order sharing the filled order's group id
is set to canceled (the loop breaks after one). -/
def cancelSibling (w : PaperWallet) (o : Order) (candle : Feed.Candle) :
    PaperWallet :=
  match w.orders.findIdx?
      (fun g => decide (g.groupID = o.groupID ∧ g.exchangeID ≠ o.exchangeID)) with
  | none => w
  | some j =>
    { w with orders := (w.orders.set j
      { w.orders.getD j default with
        status := OrderStatusType.canceled, updatedAt := candle.time }) }

/-- One iteration of the matching loop of `OnCandle`, processing the
order at index `i` of the current (possibly already mutated) order
book. -/
def processOrderAt (candle : Feed.Candle) (w : PaperWallet) (i : Nat) :
    PaperWallet :=
  let o := w.orders.getD i default
  if o.pair ≠ candle.pair ∨ o.status ≠ OrderStatusType.new then w
  else
    let asset := (saq o.pair).1
    let quote := (saq o.pair).2
    if o.side = SideType.buy then
      if o.price ≥ candle.close then
        let w₁ := ensureAsset w asset
        let w₂ := { w₁ with
          volume := (qset w₁.volume candle.pair
            (w₁.volume candle.pair + o.price * o.quantity))
          orders := (w₁.orders.set i
            { o with updatedAt := candle.time, status := OrderStatusType.filled }) }
        let w₃ := updateAveragePrice saq w₂ o.side o.pair o.quantity o.price
        let a₁ := aset w₃.assets asset
          ⟨(w₃.assets asset).free + o.quantity, (w₃.assets asset).lock⟩
        { w₃ with assets :=
          (aset a₁ quote
            ⟨(a₁ quote).free, (a₁ quote).lock - o.price * o.quantity⟩) }
      else w
    else
      let orderPrice :=
        if (o.type = OrderType.limit ∨ o.type = OrderType.limitMaker ∨
            o.type = OrderType.takeProfit ∨ o.type = OrderType.takeProfitLimit) ∧
            candle.high ≥ o.price then
          some o.price
        else if (o.type = OrderType.stopLossLimit ∨ o.type = OrderType.stopLoss) ∧
            candle.low ≤ o.stop.getD 0 then
          some (o.stop.getD 0)
        else none
      match orderPrice with
      | none => w
      | some op =>
        let w₁ := if o.groupID ≠ none then cancelSibling w o candle else w
        let w₂ := ensureAsset w₁ quote
        let w₃ := { w₂ with
          volume := (qset w₂.volume candle.pair
            (w₂.volume candle.pair + o.quantity * op))
          orders := (w₂.orders.set i
            { o with updatedAt := candle.time, status := OrderStatusType.filled }) }
        let w₄ := updateAveragePrice saq w₃ o.side o.pair o.quantity op
        let a₁ := aset w₄.assets asset
          ⟨(w₄.assets asset).free, (w₄.assets asset).lock - o.quantity⟩
        { w₄ with assets :=
          (aset a₁ quote
            ⟨(a₁ quote).free + o.quantity * op, (a₁ quote).lock⟩) }

/-- The equity-recording block at the bottom of `OnCandle`, run for
every completed candle: for each asset in the balance table, sample its
value (short balances marked to market as `2·avgShort·qty − close·qty`)
and append the total plus the base-coin balance to the equity series.
Go iterates the map in unspecified order; the embedding iterates the
key list in insertion order. -/
def recordEquity (w : PaperWallet) (candle : Feed.Candle) : PaperWallet :=
  let step := fun (acc : ℚ × (String → List AssetValue)) (asset : String) =>
    let info := w.assets asset
    let amount := info.free + info.lock
    let pair := (asset ++ w.baseCoin).toUpper
    let contrib :=
      if amount < 0 then
        2 * |amount| * w.avgShortPrice pair - |amount| * (w.lastCandle pair).close
      else amount * (w.lastCandle pair).close
    (acc.1 + contrib,
      fun q => if q = asset then
        acc.2 asset ++ [⟨candle.time, amount * (w.lastCandle pair).close⟩]
      else acc.2 q)
  let r := w.assetsKeys.foldl step (0, w.assetValues)
  { w with
    assetValues := r.2
    equityValues := w.equityValues ++
      [⟨candle.time, r.1 + (w.assets w.baseCoin).lock + (w.assets w.baseCoin).free⟩] }

/-- `(*PaperWallet).OnCandle`: record the candle, try to fill every
resting order of its pair against it, and on a completed candle sample
the equity series. -/
def onCandle (w₀ : PaperWallet) (candle : Feed.Candle) : PaperWallet :=
  let w₁ := { w₀ with lastCandle := (cset w₀.lastCandle candle.pair candle) }
  let w₂ :=
    if candle.pair ∈ w₁.fistCandleKeys then w₁
    else { w₁ with
      fistCandleKeys := w₁.fistCandleKeys ++ [candle.pair]
      fistCandle := (cset w₁.fistCandle candle.pair candle) }
  let w₃ := (List.range w₂.orders.length).foldl (processOrderAt saq candle) w₂
  if candle.complete then recordEquity w₃ candle else w₃

/-- A concrete instance of the process-wide pair table
(`pairAssetQuoteMap`) with the single pair `BTCUSDT`. -/
def saqBTC : String → String × String :=
  fun p => if p = "BTCUSDT" then ("BTC", "USDT") else ("", "")

/-- A freshly created paper wallet holding nothing. -/
def emptyWallet : PaperWallet :=
  ⟨"USDT", 0, [], [], fun _ => ⟨0, 0⟩, fun _ => 0, fun _ => 0, fun _ => 0,
    fun _ => zeroCandle, [], fun _ => zeroCandle, fun _ => [], []⟩

/-- A wallet holding 10 BTC free (enough to admit the sell orders of the
matching-engine scenarios). -/
def btcWallet : PaperWallet :=
  { emptyWallet with
    assets := (fun a => if a = "BTC" then ⟨10, 0⟩ else ⟨0, 0⟩) }

/-- A wallet holding 10000 USDT free (enough to admit the buy orders of
the matching-engine scenarios). -/
def usdtWallet : PaperWallet :=
  { emptyWallet with
    assets := (fun a => if a = "USDT" then ⟨10000, 0⟩ else ⟨0, 0⟩) }

/-- The limit-maker leg of a concrete sell-side OCO pair (limit 100,
group id 1), shaped exactly as `createOrderOCO` builds it. -/
def ocoLimitLeg : Order :=
  ⟨0, 2, "BTCUSDT", SideType.sell, OrderType.limitMaker, OrderStatusType.new,
    100, 1, 0, 0, none, some 1, 95, 0, 0⟩

/-- The stop leg of the same concrete sell-side OCO pair (stop 90,
stop-limit 89, group id 1). -/
def ocoStopLeg : Order :=
  ⟨0, 3, "BTCUSDT", SideType.sell, OrderType.stopLoss, OrderStatusType.new,
    89, 1, 0, 0, some 90, some 1, 95, 0, 0⟩

/-- A BTC-holding wallet whose book is exactly the concrete sell OCO pair. -/
def ocoWallet : PaperWallet :=
  { btcWallet with orders := [ocoLimitLeg, ocoStopLeg] }

/-- A candle meeting both OCO trigger conditions at once
(high 200 ≥ 100 and low 10 ≤ 90). -/
def ocoCandle : Feed.Candle :=
  ⟨"BTCUSDT", 1000, 1000, 0, 95, 10, 200, 0, false, []⟩

end Wallet

end JacobBot

/-!
## Theorems

All definitions above are complete; everything from here on is a
theorem about them.
-/

namespace JacobBot

namespace PQ

variable {α : Type} [Inhabited α] [LinearOrder α]

theorem bestChild_gt (len : Nat) (data : List α) (pos : Nat) :
    pos < bestChild len data pos := by
  unfold bestChild; split <;> omega

theorem bestChild_lt (len : Nat) (data : List α) (pos : Nat) (h : pos < len / 2) :
    bestChild len data pos < len := by
  unfold bestChild; split <;> omega

/-! ### Basic index lemmas -/

theorem nth_eq_getD_getElem (l : List α) (i : Nat) : nth l i = (l[i]?).getD default := by
  simp [nth]

theorem nth_set_eq {l : List α} {i : Nat} {a : α} (h : i < l.length) :
    nth (l.set i a) i = a := by
  simp [nth, List.getD_eq_getElem (l.set i a) default (by simpa using h), List.getElem_set, h]

theorem nth_set_ne {l : List α} {i j : Nat} {a : α} (h : i ≠ j) :
    nth (l.set i a) j = nth l j := by
  simp [nth_eq_getD_getElem, List.getElem?_set_ne h]

theorem nth_append_lt {l m : List α} {i : Nat} (h : i < l.length) :
    nth (l ++ m) i = nth l i := by
  rw [nth, nth, List.getD_append _ _ _ _ h]

theorem nth_append_self {l : List α} {x : α} : nth (l ++ [x]) l.length = x := by
  simp [nth, List.getD_append_right _ _ _ _ (Nat.le_refl _)]

theorem nth_take {l : List α} {i n : Nat} (h : i < n) :
    nth (l.take n) i = nth l i := by
  by_cases hl : i < l.length
  · have hlen : i < (l.take n).length := by
      simp [List.length_take]; omega
    rw [nth, nth, List.getD_eq_getElem _ _ hlen, List.getD_eq_getElem _ _ hl]
    simp [List.getElem_take]
  · rw [nth, nth, List.getD_eq_default _ _ (Nat.le_of_not_lt hl),
      List.getD_eq_default]
    simp [List.length_take]; omega

theorem nth_mem {l : List α} {i : Nat} (h : i < l.length) : nth l i ∈ l := by
  rw [nth, List.getD_eq_getElem _ _ h]; exact List.getElem_mem _

theorem mem_of_mem_set {l : List α} {i : Nat} {a x : α} (h : x ∈ l.set i a) :
    x ∈ l ∨ x = a := by
  rcases List.mem_or_eq_of_mem_set h with h' | h'
  · exact Or.inl h'
  · exact Or.inr h'

/-! ### Length preservation -/

theorem down_length (len : Nat) (item : α) (data : List α) (pos : Nat) :
    (down len item data pos).length = data.length := by
  induction data, pos using down.induct len item with
  | case1 data pos hpos hstop =>
    rw [down, dif_pos hpos, if_pos hstop]; simp
  | case2 data pos hpos hstop ih =>
    rw [down, dif_pos hpos, if_neg hstop]
    simpa using ih
  | case3 data pos hpos =>
    rw [down, dif_neg hpos]; simp

theorem up_length (item : α) (data : List α) (pos : Nat) :
    (up item data pos).length = data.length := by
  induction data, pos using up.induct item with
  | case1 data pos hpos hstop =>
    rw [up, dif_pos hpos, if_pos hstop]; simp
  | case2 data pos hpos hstop ih =>
    rw [up, dif_pos hpos, if_neg hstop]
    simpa using ih
  | case3 data pos hpos =>
    rw [up, dif_neg hpos]; simp

theorem push_length (l : List α) (x : α) : (push l x).length = l.length + 1 := by
  simp [push, up_length]

theorem pop_empty : pop ([] : List α) = (none, []) := by simp [pop]

theorem pop_length {l : List α} (h : l ≠ []) :
    ((pop l).2).length = l.length - 1 := by
  have hlen : l.length ≠ 0 := by simpa using h
  by_cases h1 : 0 < l.length - 1
  · simp only [pop, if_neg hlen, if_pos h1]
    simp only [List.length_take, down_length, List.length_set]
    omega
  · simp only [pop, if_neg hlen, if_neg h1]
    simp only [List.length_take]
    omega

theorem pop_fst {l : List α} (h : l ≠ []) : (pop l).1 = some (nth l 0) := by
  have hlen : l.length ≠ 0 := by simpa using h
  by_cases h1 : 0 < l.length - 1 <;> simp [pop, hlen, h1]

theorem up_heap (item : α) (data : List α) (pos : Nat) :
    UpInv item data pos → heap (up item data pos) := by
  induction data, pos using up.induct item with
  | case1 data pos hpos hstop =>
    rintro ⟨hb, hexc, hchild, -⟩
    rw [up, dif_pos hpos, if_pos hstop]
    intro c hc hc0
    rw [List.length_set] at hc
    have hpar : (c - 1) / 2 < c := by omega
    by_cases hcp : c = pos
    · subst hcp
      rw [nth_set_eq hb, nth_set_ne (by omega)]
      exact not_lt.mp hstop
    · by_cases hpp : (c - 1) / 2 = pos
      · rw [nth_set_ne (Ne.symm hcp), hpp, nth_set_eq hb]
        exact hchild c hc hc0 hpp
      · rw [nth_set_ne (Ne.symm hcp), nth_set_ne (fun h => hpp h.symm)]
        exact hexc c hc hc0 hcp hpp
  | case2 data pos hpos hstop ih =>
    rintro ⟨hb, hexc, hchild, hpar⟩
    have hlt : item < nth data ((pos - 1) / 2) := not_not.mp hstop
    rw [up, dif_pos hpos, if_neg hstop]
    apply ih
    refine ⟨by rw [List.length_set]; omega, ?_, ?_, ?_⟩
    · -- edges not touching the new hole `(pos-1)/2`
      intro c hc hc0 hcp hpp
      rw [List.length_set] at hc
      have hcpos : c ≠ pos := fun h => hpp (by rw [h])
      by_cases hchildpos : (c - 1) / 2 = pos
      · rw [hchildpos, nth_set_eq hb, nth_set_ne (Ne.symm hcpos)]
        exact hpar hpos c hc hc0 hchildpos
      · rw [nth_set_ne (fun h => hchildpos h.symm), nth_set_ne (Ne.symm hcpos)]
        exact hexc c hc hc0 hcpos hchildpos
    · -- children of the new hole dominate the item
      intro c hc hc0 hcp
      rw [List.length_set] at hc
      by_cases hcpos : c = pos
      · subst hcpos
        rw [nth_set_eq hb]
        exact hlt.le
      · rw [nth_set_ne (Ne.symm hcpos)]
        exact hlt.le.trans (hcp ▸ hexc c hc hc0 hcpos (by omega))
    · -- children of the new hole dominate its parent
      intro hp0 c hc hc0 hcp
      rw [List.length_set] at hc
      have hgpos : ((pos - 1) / 2 - 1) / 2 ≠ pos := by omega
      have hparlt : (pos - 1) / 2 < data.length := by omega
      have hgrand : nth data (((pos - 1) / 2 - 1) / 2) ≤ nth data ((pos - 1) / 2) :=
        hexc ((pos - 1) / 2) hparlt hp0 (by omega) (by omega)
      by_cases hcpos : c = pos
      · subst hcpos
        rw [nth_set_eq hb, nth_set_ne (show c ≠ ((c - 1) / 2 - 1) / 2 by omega)]
        exact hgrand
      · rw [nth_set_ne (show pos ≠ ((pos - 1) / 2 - 1) / 2 by omega),
          nth_set_ne (Ne.symm hcpos)]
        exact hgrand.trans (hcp ▸ hexc c hc hc0 hcpos (by omega))
  | case3 data pos hpos =>
    rintro ⟨hb, hexc, hchild, -⟩
    have hpos0 : pos = 0 := by omega
    subst hpos0
    rw [up, dif_neg hpos]
    intro c hc hc0
    rw [List.length_set] at hc
    by_cases hpp : (c - 1) / 2 = 0
    · rw [hpp, nth_set_eq hb, nth_set_ne (show (0 : Nat) ≠ c by omega)]
      exact hchild c hc hc0 hpp
    · rw [nth_set_ne (show (0 : Nat) ≠ (c - 1) / 2 from fun h => hpp h.symm),
        nth_set_ne (show (0 : Nat) ≠ c by omega)]
      exact hexc c hc hc0 (by omega) hpp

/-- `Push` preserves the heap invariant. -/
theorem heap_push {l : List α} (hl : heap l) (x : α) : heap (push l x) := by
  rw [push, nth_append_self]
  apply up_heap
  refine ⟨by simp, ?_, ?_, ?_⟩
  · intro c hc hc0 hcp hpp
    rw [List.length_append, List.length_singleton] at hc
    have hc' : c < l.length := by omega
    rw [nth_append_lt hc', nth_append_lt (by omega)]
    exact hl c hc' hc0
  · intro c hc hc0 hcp
    rw [List.length_append, List.length_singleton] at hc
    omega
  · intro hp c hc hc0 hcp
    rw [List.length_append, List.length_singleton] at hc
    omega

theorem bestChild_parent (len : Nat) (data : List α) (pos : Nat) :
    (bestChild len data pos - 1) / 2 = pos := by
  unfold bestChild; split <;> omega

theorem bestChild_min {len : Nat} {data : List α} {pos c : Nat}
    (hpos : pos < len / 2) (hc : c < len) (hc0 : 0 < c) (hp : (c - 1) / 2 = pos) :
    nth data (bestChild len data pos) ≤ nth data c := by
  have hcases : c = 2 * pos + 1 ∨ c = 2 * pos + 2 := by omega
  unfold bestChild
  rcases hcases with h | h <;> subst h <;> split
  · next hcond => exact (hcond.2).le
  · next hcond => exact le_rfl
  · next hcond => exact le_rfl
  · next hcond =>
    rcases not_and_or.mp hcond with h | h
    · omega
    · exact not_lt.mp h

theorem down_heapUpTo (len : Nat) (item : α) (data : List α) (pos : Nat) :
    DownInv len item data pos → heapUpTo len (down len item data pos) := by
  induction data, pos using down.induct len item with
  | case1 data pos hpos hstop =>
    rintro ⟨hlen, hb, hexc, hup, hpar⟩
    rw [down, dif_pos hpos, if_pos hstop]
    intro c hc hc0
    by_cases hcp : c = pos
    · subst hcp
      rw [nth_set_eq (by omega), nth_set_ne (show c ≠ (c - 1) / 2 by omega)]
      exact hup (by omega)
    · by_cases hpp : (c - 1) / 2 = pos
      · rw [hpp, nth_set_eq (by omega), nth_set_ne (show pos ≠ c by omega)]
        exact (not_lt.mp hstop).trans (bestChild_min hpos hc hc0 hpp)
      · rw [nth_set_ne (show pos ≠ (c - 1) / 2 from fun h => hpp h.symm),
          nth_set_ne (Ne.symm hcp)]
        exact hexc c hc hc0 hcp hpp
  | case2 data pos hpos hstop ih =>
    rintro ⟨hlen, hb, hexc, hup, hpar⟩
    have hlt : nth data (bestChild len data pos) < item := not_not.mp hstop
    have hbest1 : pos < bestChild len data pos := bestChild_gt len data pos
    have hbest2 : bestChild len data pos < len := bestChild_lt len data pos hpos
    have hbestp : (bestChild len data pos - 1) / 2 = pos := bestChild_parent len data pos
    rw [down, dif_pos hpos, if_neg hstop]
    apply ih
    refine ⟨by rw [List.length_set]; exact hlen, by omega, ?_, ?_, ?_⟩
    · -- live edges not leaving the new hole
      intro c hc hc0 hcb hpb
      by_cases hcpos : c = pos
      · subst hcpos
        have hc0' : 0 < c := hc0
        rw [nth_set_eq (by omega), nth_set_ne (show c ≠ (c - 1) / 2 by omega)]
        exact hpar hc0' _ hbest2 (by omega) hbestp
      · by_cases hpp : (c - 1) / 2 = pos
        · rw [hpp, nth_set_eq (by omega), nth_set_ne (show pos ≠ c by omega)]
          exact bestChild_min hpos hc hc0 hpp
        · rw [nth_set_ne (show pos ≠ (c - 1) / 2 from fun h => hpp h.symm),
            nth_set_ne (Ne.symm hcpos)]
          exact hexc c hc hc0 hcpos hpp
    · -- the new hole's parent is at most the item
      intro h0
      rw [hbestp, nth_set_eq (by omega)]
      exact hlt.le
    · -- the new hole's parent is at most the new hole's children
      intro h0 c hc hc0 hcp
      have hcgt : bestChild len data pos < c := by omega
      rw [hbestp, nth_set_eq (by omega), nth_set_ne (show pos ≠ c by omega)]
      exact hcp ▸ hexc c hc hc0 (by omega) (by omega)
  | case3 data pos hpos =>
    rintro ⟨hlen, hb, hexc, hup, hpar⟩
    rw [down, dif_neg hpos]
    intro c hc hc0
    by_cases hcp : c = pos
    · subst hcp
      rw [nth_set_eq (by omega), nth_set_ne (show c ≠ (c - 1) / 2 by omega)]
      exact hup (by omega)
    · have hpp : (c - 1) / 2 ≠ pos := by omega
      rw [nth_set_ne (show pos ≠ (c - 1) / 2 from fun h => hpp h.symm),
        nth_set_ne (Ne.symm hcp)]
      exact hexc c hc hc0 hcp hpp

/-- `Pop` preserves the heap invariant (even though it corrupts the
multiset of stored elements, see the claim on `Pop` below: the slice it
leaves behind is still a well-formed heap). -/
theorem heap_pop {l : List α} (hl : heap l) : heap (pop l).2 := by
  by_cases h0 : l.length = 0
  · simp only [pop, if_pos h0]
    intro c hc hc0
    omega
  · by_cases h1 : 0 < l.length - 1
    · simp only [pop, if_neg h0, if_pos h1]
      intro c hc hc0
      rw [List.length_take, down_length, List.length_set] at hc
      have hc' : c < l.length - 1 := by omega
      have hpar : (c - 1) / 2 < l.length - 1 := by omega
      rw [nth_take hpar, nth_take hc']
      apply down_heapUpTo _ _ _ _ ?_ c hc' hc0
      refine ⟨by rw [List.length_set]; omega, by omega, ?_, by omega, by omega⟩
      intro d hd hd0 hdp hdq
      rw [nth_set_ne (show (0 : Nat) ≠ (d - 1) / 2 from fun h => hdq h.symm),
        nth_set_ne (show (0 : Nat) ≠ d by omega)]
      exact hl d (by omega) hd0
    · simp only [pop, if_neg h0, if_neg h1]
      intro c hc hc0
      rw [List.length_take] at hc
      omega

/-! ### The root is minimal, and popped elements come from the queue -/

theorem root_min {l : List α} (hl : heap l) :
    ∀ i, i < l.length → nth l 0 ≤ nth l i := by
  intro i
  induction i using Nat.strong_induction_on with
  | _ i ih =>
    intro hi
    rcases Nat.eq_zero_or_pos i with h | h
    · subst h; exact le_rfl
    · exact (ih ((i - 1) / 2) (by omega) (by omega)).trans (hl i hi h)

theorem root_le_of_mem {l : List α} (hl : heap l) {x : α} (hx : x ∈ l) :
    nth l 0 ≤ x := by
  obtain ⟨i, hi, rfl⟩ := List.mem_iff_getElem.mp hx
  rw [show l[i] = nth l i from (List.getD_eq_getElem l default hi).symm]
  exact root_min hl i hi

theorem down_mem {len : Nat} {item : α} {data : List α} {pos : Nat}
    (hlen : len ≤ data.length) {x : α} (hx : x ∈ down len item data pos) :
    x ∈ data ∨ x = item := by
  induction data, pos using down.induct len item with
  | case1 data pos hpos hstop =>
    rw [down, dif_pos hpos, if_pos hstop] at hx
    exact mem_of_mem_set hx
  | case2 data pos hpos hstop ih =>
    rw [down, dif_pos hpos, if_neg hstop] at hx
    rcases ih (by rw [List.length_set]; exact hlen) hx with h | h
    · rcases mem_of_mem_set h with h' | h'
      · exact Or.inl h'
      · subst h'
        exact Or.inl (nth_mem (lt_of_lt_of_le (bestChild_lt len data pos hpos) hlen))
    · exact Or.inr h
  | case3 data pos hpos =>
    rw [down, dif_neg hpos] at hx
    exact mem_of_mem_set hx

theorem pop_mem {l : List α} {x : α} (hx : x ∈ (pop l).2) : x ∈ l := by
  by_cases h0 : l.length = 0
  · simpa only [pop, if_pos h0] using hx
  · by_cases h1 : 0 < l.length - 1
    · simp only [pop, if_neg h0, if_pos h1] at hx
      have hx' := List.mem_of_mem_take hx
      have hnth : nth l (l.length - 1 - 1) ∈ l := nth_mem (by omega)
      rcases down_mem (by rw [List.length_set]; omega) hx' with h | h
      · rcases mem_of_mem_set h with h' | h'
        · exact h'
        · exact h' ▸ hnth
      · rw [h, nth_set_eq (by omega)]
        exact hnth
    · simp only [pop, if_neg h0, if_neg h1] at hx
      exact List.mem_of_mem_take hx

theorem heap_nil : heap ([] : List α) := by
  intro c hc hc0
  simp at hc

theorem heap_pushAll (xs : List α) : heap (pushAll xs) := by
  rw [pushAll]
  have h : ∀ (ys : List α) (l : List α), heap l → heap (ys.foldl push l) := by
    intro ys
    induction ys with
    | nil => intro l hl; exact hl
    | cons y ys ih => intro l hl; exact ih _ (heap_push hl y)
  exact h xs [] heap_nil

theorem popAllFuel_mem {fuel : Nat} {l : List α} {x : α}
    (hx : x ∈ popAllFuel fuel l) : x ∈ l := by
  induction fuel generalizing l with
  | zero => simp [popAllFuel] at hx
  | succ fuel ih =>
    rw [popAllFuel] at hx
    rcases hpop : pop l with ⟨o, next⟩
    rw [hpop] at hx
    match o, hx with
    | none, hx => simp at hx
    | some a, hx =>
      have hne : l ≠ [] := by
        intro h
        subst h
        rw [pop_empty] at hpop
        simp at hpop
      rcases List.mem_cons.mp hx with h | h
      · subst h
        have := pop_fst hne
        rw [hpop] at this
        simp only [Option.some.injEq] at this
        rw [this]
        exact nth_mem (by simpa using List.length_pos.mpr hne)
      · have := ih h
        have hnext : next = (pop l).2 := by rw [hpop]
        rw [hnext] at this
        exact pop_mem this

theorem popAllFuel_sorted {fuel : Nat} {l : List α} (hl : heap l) :
    List.Sorted (· ≤ ·) (popAllFuel fuel l) := by
  induction fuel generalizing l with
  | zero => simp [popAllFuel]
  | succ fuel ih =>
    rw [popAllFuel]
    rcases hpop : pop l with ⟨o, next⟩
    match o with
    | none => simp
    | some a =>
      have hne : l ≠ [] := by
        intro h
        subst h
        rw [pop_empty] at hpop
        simp at hpop
      have ha : a = nth l 0 := by
        have := pop_fst hne
        rw [hpop] at this
        simpa using this
      have hnext : next = (pop l).2 := by rw [hpop]
      rw [List.sorted_cons]
      constructor
      · intro b hb
        have hb' : b ∈ l := by
          rw [hnext] at hb
          exact pop_mem (popAllFuel_mem hb)
        rw [ha]
        exact root_le_of_mem hl hb'
      · rw [hnext]
        exact ih (heap_pop hl)

theorem runQOps_len (ops : List (QOp α)) :
    ∀ (l : List α) (k : Nat),
      (runQOps (l, k) ops).1.length + (runQOps (l, k) ops).2 =
        l.length + k + numPushes ops := by
  induction ops with
  | nil => intro l k; simp [runQOps, numPushes]
  | cons op ops ih =>
    intro l k
    match op with
    | QOp.push x =>
      rw [runQOps, numPushes]
      dsimp only
      have := ih (push l x) k
      rw [push_length] at this
      omega
    | QOp.pop =>
      rw [runQOps, numPushes]
      dsimp only
      rcases hpop : pop l with ⟨o, next⟩
      match o with
      | none =>
        dsimp only
        have hemp : l = [] := by
          by_contra hne
          have := pop_fst hne
          rw [hpop] at this
          simp at this
        have hnext : next = l := by
          subst hemp
          rw [pop_empty] at hpop
          simpa using hpop.symm
        rw [hnext]
        exact ih l k
      | some a =>
        dsimp only
        have hne : l ≠ [] := by
          intro h
          subst h
          rw [pop_empty] at hpop
          simp at hpop
        have hlen : next.length = l.length - 1 := by
          have := pop_length hne
          rw [hpop] at this
          exact this
        have hpos : 0 < l.length := List.length_pos.mpr hne
        have := ih next (k + 1)
        omega

/-- **C3** — failing evaluation.  The claim states that `Pop` on a
non-empty queue returns the root and leaves exactly the previous
multiset minus one occurrence of that minimum.  On the queue built by
pushing `1` then `2` (backing slice `[1, 2]`), `Pop` returns the
minimum `1` but leaves `[1]`: the element `2` is lost and the minimum
is duplicated, because `Pop` moves `q.data[q.length-1]` — the
second-to-last element of the original slice — to the root instead of
the last one. -/
theorem C3_pop_corrupts_queue :
    pop (push (push ([] : List ℤ) 1) 2) = (some 1, [1]) ∧
    Multiset.ofList (pop (push (push ([] : List ℤ) 1) 2)).2 ≠
      Multiset.ofList (push (push ([] : List ℤ) 1) 2) - {1} := by
  have h1 : push (push ([] : List ℤ) 1) 2 = [1, 2] := by simp [push, up, nth]
  rw [h1]
  have h2 : pop ([1, 2] : List ℤ) = (some 1, [1]) := by simp [pop, down, bestChild, nth]
  rw [h2]
  exact ⟨rfl, by decide⟩

/-- **C8**: for any sequence of pushes, successive pops drain the queue
in non-decreasing comparator order; the heap invariant is preserved by
every `Push` and every `Pop`; and `Len` always equals the number of
pushes minus the number of successful pops performed so far, over any
sequence of queue calls started from an empty queue. -/
theorem C8_queue_invariants :
    (∀ xs : List α, List.Sorted (· ≤ ·) (popAll (pushAll xs))) ∧
    (∀ (l : List α) (x : α), heap l → heap (push l x)) ∧
    (∀ l : List α, heap l → heap (pop l).2) ∧
    (∀ ops : List (QOp α),
      lenQ (runQOps ([], 0) ops).1 + (runQOps ([], 0) ops).2 = numPushes ops ∧
      lenQ (runQOps ([], 0) ops).1 = numPushes ops - (runQOps ([], 0) ops).2) := by
  refine ⟨fun xs => popAllFuel_sorted (heap_pushAll xs),
    fun l x hl => heap_push hl x,
    fun l hl => heap_pop hl,
    fun ops => ?_⟩
  have h := runQOps_len ops [] 0
  simp only [List.length_nil] at h
  constructor
  · simpa [lenQ] using h
  · simp only [lenQ]
    omega

/-- Witness for **C8**: the heap-preservation conjuncts applied to the
concrete heap `[1, 2]` over `ℤ`. -/
theorem C8_queue_invariants_witness :
    heap ([1, 2] : List ℤ) ∧ heap (push ([1, 2] : List ℤ) 5) ∧
      heap (pop ([1, 2] : List ℤ)).2 :=
  ⟨by decide, (C8_queue_invariants (α := ℤ)).2.1 [1, 2] 5 (by decide),
    (C8_queue_invariants (α := ℤ)).2.2.1 [1, 2] (by decide)⟩

end PQ

namespace Ledger

/-- **C1** — failing evaluation.  The claim's own example: a long
position `{avg 100, qty 10}` receives an opposite-side sell of 15 at
90.  The claim requires one Result closing `min(10,15) = 10` units at
`pnlPct = (90−100)/100 = −10%`, `pnlAbs = (90−100)·10 = −100`, side of
the closed position (`buy`).  The code flips the position first and
only then computes the PnL against the already-flipped position, so the
emitted Result carries `pnlPct = 0`, `pnlAbs = 0` and `side = sell`.
Only the resulting short position `{side sell, avg 90, qty 5}` matches
the claim. -/
theorem C1_update_flip_emits_zero_pnl :
    Position.update ⟨SideType.buy, 100, 10, 0⟩
        ⟨1, 1, "BTCUSDT", SideType.sell, OrderType.market, OrderStatusType.filled,
          90, 15, 5, 5, none, none, 0, 0, 0⟩ =
      (⟨SideType.sell, 90, 5, 5⟩,
        some ⟨"BTCUSDT", 0, 0, SideType.sell, 0, 5⟩, false) ∧
    (0 : ℚ) ≠ (90 - 100) / 100 ∧ (0 : ℚ) ≠ (90 - 100) * 10 ∧
      SideType.sell ≠ SideType.buy := by
  refine ⟨?_, by norm_num, by norm_num, by decide⟩
  simp +decide only [Position.update]
  norm_num

/-- **C2** — failing evaluation.  Feeding the controller a filled buy
of 10 @ 100 and then a filled sell of 10 @ 110 emits exactly one
`Result` with realized absolute PnL 100 (and no result on the opening
buy), yet the per-pair summary's `Profit()` still returns 0: the
emitted results are never accrued into the win/lose × long/short
buckets that `Profit()` (and winRate, payoff, profitFactor, SQN) are
computed from — the accrual described by the comment in
`updatePosition` has no corresponding code. -/
theorem C2_profit_buckets_never_accrued :
    ((Controller.empty.processTrade
        ⟨1, 1, "BTCUSDT", SideType.buy, OrderType.market, OrderStatusType.filled,
          100, 10, 0, 0, none, none, 0, 0, 0⟩).2 = none) ∧
    ((Controller.empty.processTrade
        ⟨1, 1, "BTCUSDT", SideType.buy, OrderType.market, OrderStatusType.filled,
          100, 10, 0, 0, none, none, 0, 0, 0⟩).1.processTrade
        ⟨2, 2, "BTCUSDT", SideType.sell, OrderType.market, OrderStatusType.filled,
          110, 10, 5, 5, none, none, 0, 0, 0⟩).2 =
      some ⟨"BTCUSDT", 1/10, 100, SideType.buy, 5, 5⟩ ∧
    ((((Controller.empty.processTrade
        ⟨1, 1, "BTCUSDT", SideType.buy, OrderType.market, OrderStatusType.filled,
          100, 10, 0, 0, none, none, 0, 0, 0⟩).1.processTrade
        ⟨2, 2, "BTCUSDT", SideType.sell, OrderType.market, OrderStatusType.filled,
          110, 10, 5, 5, none, none, 0, 0, 0⟩).1.results "BTCUSDT").getD
      default).profit = 0 ∧
    (0 : ℚ) ≠ 100 := by
  refine ⟨?_, ?_, ?_, by norm_num⟩
  · simp +decide [Controller.processTrade, Controller.empty,
      Controller.updatePosition, Position.update, mapSet]
  · simp +decide [Controller.processTrade, Controller.empty,
      Controller.updatePosition, Position.update, mapSet]
    norm_num
  · simp +decide [Controller.processTrade, Controller.empty,
      Controller.updatePosition, Position.update, mapSet,
      Summary.profit, Summary.win, Summary.lose]

end Ledger

namespace Feed

/-- **C4** — failing evaluation.  Resampling six complete 1h bars
(volumes 1, 2, 4, 8, 16, 32) to 4h: the first target period has the
source bars at hours 0–3, the unfinished final period has the bars at
hours 4–5.  Because the merge loop *appends* every partial accumulation
instead of replacing the open bar in place, the stored result keeps the
three partial accumulations of the first period next to its completed
bar (volume 15), and keeps the hour-4 partial accumulation of the
unfinished final period (volume 16, incomplete): only the very last
accumulation (hours 4–5, volume 48) is dropped.  The claim requires
every partial accumulation of the unfinished final target period to be
dropped, and every output bar to aggregate its full period. -/
theorem C4_resample_keeps_partial_bars :
    resampleCandles "1h" "4h"
      [⟨"BTCUSDT", 0, 0, 10, 20, 10, 30, 1, true, []⟩,
       ⟨"BTCUSDT", 3600, 3600, 11, 21, 9, 31, 2, true, []⟩,
       ⟨"BTCUSDT", 7200, 7200, 12, 22, 8, 32, 4, true, []⟩,
       ⟨"BTCUSDT", 10800, 10800, 13, 23, 7, 33, 8, true, []⟩,
       ⟨"BTCUSDT", 14400, 14400, 14, 24, 6, 34, 16, true, []⟩,
       ⟨"BTCUSDT", 18000, 18000, 15, 25, 5, 35, 32, true, []⟩] =
    Except.ok
      [⟨"BTCUSDT", 0, 0, 10, 20, 10, 30, 1, false, []⟩,
       ⟨"BTCUSDT", 0, 3600, 10, 21, 9, 31, 3, false, []⟩,
       ⟨"BTCUSDT", 0, 7200, 10, 22, 8, 32, 7, false, []⟩,
       ⟨"BTCUSDT", 0, 10800, 10, 23, 7, 33, 15, true, []⟩,
       ⟨"BTCUSDT", 14400, 14400, 14, 24, 6, 34, 16, false, []⟩] := by
  simp +decide [resampleCandles, skipToFirst, mergeLoop, isFistCandlePeriod,
    isLastCandlePeriod, parseDuration, second, minute, hour, weekday]
  norm_num

/-- **C5** — failing evaluation.  A CSV with header row
`open,time,close,low,high,volume,rsi` and one data row
`2,10,3,4,5,6,7`.  Columns are indeed matched by name (`time` is read
from index 1 and `open` from index 0, despite the permuted order) and
the extra `rsi` column lands in the per-bar metadata — but the
`close`, `low`, `high` and `volume` fields of the produced candle are
all 0, not 3, 4, 5 and 6 as the claim requires: the statements parsing
them are missing from the source (a comment stands in their place). -/
theorem C5_csv_candle_fields_not_parsed :
    newCSVFeedCandles "BTCUSDT"
      [["open", "time", "close", "low", "high", "volume", "rsi"],
       ["2", "10", "3", "4", "5", "6", "7"]] =
      some [⟨"BTCUSDT", 10, 10, 2, 0, 0, 0, 0, true, [("rsi", 7)]⟩] ∧
    (0 : ℚ) ≠ 3 ∧ (0 : ℚ) ≠ 4 ∧ (0 : ℚ) ≠ 5 ∧ (0 : ℚ) ≠ 6 := by
  refine ⟨?_, by norm_num, by norm_num, by norm_num, by norm_num⟩
  simp +decide [newCSVFeedCandles, parseHeaders, lineToCandle, baseHeaderMap,
    hmapSet, Atoi, parseFloatQ, digitsToNat, List.splitOn, List.enum, List.enumFrom]

end Feed

namespace Wallet

variable (saq : String → String × String)

/-! ### Lemmas for fund admission (C9, C10) -/

theorem ensureAsset_assets (w : PaperWallet) (k : String) :
    (ensureAsset w k).assets = w.assets := by
  unfold ensureAsset; split <;> rfl

theorem ensureAsset_orders (w : PaperWallet) (k : String) :
    (ensureAsset w k).orders = w.orders := by
  unfold ensureAsset; split <;> rfl

theorem ensureAsset_volume (w : PaperWallet) (k : String) :
    (ensureAsset w k).volume = w.volume := by
  unfold ensureAsset; split <;> rfl

theorem ensureAsset_counter (w : PaperWallet) (k : String) :
    (ensureAsset w k).counter = w.counter := by
  unfold ensureAsset; split <;> rfl

/-- `validateFunds` either succeeds, or fails with the typed
insufficient-funds error and a wallet that differs from the caller's
only by the recorded map keys. -/
theorem validateFunds_cases (w : PaperWallet) (side : SideType)
    (pair : String) (amount value : ℚ) (fill : Bool) :
    (validateFunds saq w side pair amount value fill).2 = none ∨
    validateFunds saq w side pair amount value fill =
      (ensureAsset (ensureAsset w (saq pair).1) (saq pair).2,
        some ⟨BaseErr.insufficientFunds, pair, amount⟩) := by
  by_cases hs : side = SideType.sell <;>
    · simp only [validateFunds, hs, if_pos, if_neg, reduceIte]
      repeat' split
      all_goals first
        | exact Or.inr rfl
        | exact Or.inl rfl

/-- A failed fund admission returns the typed insufficient-funds error
carrying the pair and requested quantity, and the returned wallet's
balances, order book, volumes and counter are those of the caller's
wallet (`validateFunds` only records the map keys before the check). -/
theorem validateFunds_insufficient (w : PaperWallet) (side : SideType)
    (pair : String) (amount value : ℚ) (fill : Bool) (e : OrderError)
    (h : (validateFunds saq w side pair amount value fill).2 = some e) :
    e = ⟨BaseErr.insufficientFunds, pair, amount⟩ ∧
    validateFunds saq w side pair amount value fill =
      ((validateFunds saq w side pair amount value fill).1, some e) ∧
    (validateFunds saq w side pair amount value fill).1.assets = w.assets ∧
    (validateFunds saq w side pair amount value fill).1.orders = w.orders ∧
    (validateFunds saq w side pair amount value fill).1.volume = w.volume ∧
    (validateFunds saq w side pair amount value fill).1.counter = w.counter := by
  rcases validateFunds_cases saq w side pair amount value fill with hc | hc
  · rw [hc] at h; exact absurd h (by simp)
  · rw [hc] at h ⊢
    simp only [Option.some.injEq] at h
    subst h
    refine ⟨rfl, rfl, ?_, ?_, ?_, ?_⟩ <;>
      simp [ensureAsset_assets, ensureAsset_orders, ensureAsset_volume,
        ensureAsset_counter]

/-- **C9**: whenever an order-creation operation fails fund admission,
it synchronously returns the typed `OrderError` wrapping
`ErrInsufficientFunds` with the pair and requested quantity, no order
is appended, and every asset's free/locked balances (and the volumes
and the id counter) are unchanged.  Stated for all four creation
methods (`CreateOrderMarketQuote` delegates to `createOrderMarket`). -/
theorem C9_insufficient_funds_rejection (w : PaperWallet) (side : SideType)
    (pair : String) (size price stop stopLimit limit : ℚ) (e : OrderError) :
    (size ≠ 0 → (validateFunds saq w side pair size price false).2 = some e →
      e = ⟨BaseErr.insufficientFunds, pair, size⟩ ∧
      createOrderOCO saq w side pair size price stop stopLimit =
        ((validateFunds saq w side pair size price false).1,
          Except.error (WalletErr.orderError e)) ∧
      (validateFunds saq w side pair size price false).1.assets = w.assets ∧
      (validateFunds saq w side pair size price false).1.orders = w.orders) ∧
    (size ≠ 0 → (validateFunds saq w side pair size limit false).2 = some e →
      e = ⟨BaseErr.insufficientFunds, pair, size⟩ ∧
      createOrderLimit saq w side pair size limit =
        ((validateFunds saq w side pair size limit false).1,
          Except.error (WalletErr.orderError e)) ∧
      (validateFunds saq w side pair size limit false).1.assets = w.assets ∧
      (validateFunds saq w side pair size limit false).1.orders = w.orders) ∧
    (size ≠ 0 → (validateFunds saq w SideType.sell pair size limit false).2 = some e →
      e = ⟨BaseErr.insufficientFunds, pair, size⟩ ∧
      createOrderStop saq w pair size limit =
        ((validateFunds saq w SideType.sell pair size limit false).1,
          Except.error (WalletErr.orderError e)) ∧
      (validateFunds saq w SideType.sell pair size limit false).1.assets = w.assets ∧
      (validateFunds saq w SideType.sell pair size limit false).1.orders = w.orders) ∧
    (size ≠ 0 →
      (validateFunds saq w side pair size ((w.lastCandle pair).close) true).2 = some e →
      e = ⟨BaseErr.insufficientFunds, pair, size⟩ ∧
      createOrderMarket saq w side pair size =
        ((validateFunds saq w side pair size ((w.lastCandle pair).close) true).1,
          Except.error (WalletErr.orderError e)) ∧
      (validateFunds saq w side pair size ((w.lastCandle pair).close) true).1.assets
        = w.assets ∧
      (validateFunds saq w side pair size ((w.lastCandle pair).close) true).1.orders
        = w.orders) := by
  refine ⟨fun hsz h => ?_, fun hsz h => ?_, fun hsz h => ?_, fun hsz h => ?_⟩
  · obtain ⟨he, hvf, ha, ho, -, -⟩ :=
      validateFunds_insufficient saq w side pair size price false e h
    refine ⟨he, ?_, ha, ho⟩
    rw [createOrderOCO, if_neg hsz, hvf]
  · obtain ⟨he, hvf, ha, ho, -, -⟩ :=
      validateFunds_insufficient saq w side pair size limit false e h
    refine ⟨he, ?_, ha, ho⟩
    rw [createOrderLimit, if_neg hsz, hvf]
  · obtain ⟨he, hvf, ha, ho, -, -⟩ :=
      validateFunds_insufficient saq w SideType.sell pair size limit false e h
    refine ⟨he, ?_, ha, ho⟩
    rw [createOrderStop, if_neg hsz, hvf]
  · obtain ⟨he, hvf, ha, ho, -, -⟩ :=
      validateFunds_insufficient saq w side pair size ((w.lastCandle pair).close) true e h
    refine ⟨he, ?_, ha, ho⟩
    rw [createOrderMarket, if_neg hsz, hvf]

/-- Witness for **C9**: a sell of 1 @ 1 against an empty wallet fails
admission with the typed error, and the creation call returns it with
balances untouched. -/
theorem C9_insufficient_funds_rejection_witness :
    createOrderLimit saqBTC emptyWallet SideType.sell "BTCUSDT" 1 1 =
      ((validateFunds saqBTC emptyWallet SideType.sell "BTCUSDT" 1 1 false).1,
        Except.error (WalletErr.orderError ⟨BaseErr.insufficientFunds, "BTCUSDT", 1⟩)) ∧
    (validateFunds saqBTC emptyWallet SideType.sell "BTCUSDT" 1 1 false).1.assets =
      emptyWallet.assets ∧
    (validateFunds saqBTC emptyWallet SideType.sell "BTCUSDT" 1 1 false).1.orders =
      emptyWallet.orders := by
  have h : (validateFunds saqBTC emptyWallet SideType.sell "BTCUSDT" 1 1 false).2 =
      some ⟨BaseErr.insufficientFunds, "BTCUSDT", 1⟩ := by
    simp +decide [validateFunds, saqBTC, emptyWallet, ensureAsset]
  obtain ⟨-, hcreate, ha, ho⟩ :=
    (C9_insufficient_funds_rejection saqBTC emptyWallet SideType.sell "BTCUSDT"
        1 1 1 1 1 ⟨BaseErr.insufficientFunds, "BTCUSDT", 1⟩).2.1 (by norm_num) h
  exact ⟨hcreate, ha, ho⟩

/-- **C10**: every order-creation method called with quantity 0 returns
`ErrInvalidQuantity` before any fund validation, appends no order and
leaves the wallet (in particular all balances) untouched. -/
theorem C10_zero_quantity_rejected (w : PaperWallet) (side : SideType)
    (pair : String) (price stop stopLimit limit : ℚ) :
    createOrderOCO saq w side pair 0 price stop stopLimit =
      (w, Except.error WalletErr.invalidQuantity) ∧
    createOrderLimit saq w side pair 0 limit =
      (w, Except.error WalletErr.invalidQuantity) ∧
    createOrderStop saq w pair 0 limit =
      (w, Except.error WalletErr.invalidQuantity) ∧
    createOrderMarket saq w side pair 0 =
      (w, Except.error WalletErr.invalidQuantity) := by
  refine ⟨?_, ?_, ?_, ?_⟩ <;>
    simp [createOrderOCO, createOrderLimit, createOrderStop, createOrderMarket]

/-- The equity-recording block leaves the order book untouched. -/
theorem recordEquity_orders (w : PaperWallet) (c : Feed.Candle) :
    (recordEquity w c).orders = w.orders := rfl

/-- **C6** — counterexample.  A buy-side OCO pair (limit-maker at 100,
stop leg at 89, shared group id 1) against a candle with close 95: the
limit-maker leg fills, but the sibling stop leg stays `new` — it is
never canceled, because the OCO cancellation lives only in the sell
fill branch of `OnCandle`.  The claim requires the sibling to be
canceled for OCO pairs of either side. -/
theorem C6_buy_oco_sibling_not_canceled :
    ((onCandle saqBTC
        (createOrderOCO saqBTC usdtWallet SideType.buy "BTCUSDT" 1 100 90 89).1
        ⟨"BTCUSDT", 1000, 1000, 0, 95, 10, 200, 0, false, []⟩).orders).map
        Order.status = [OrderStatusType.filled, OrderStatusType.new] ∧
    ((createOrderOCO saqBTC usdtWallet SideType.buy "BTCUSDT" 1 100 90 89).1.orders).map
        Order.groupID = [some 1, some 1] ∧
    OrderStatusType.new ≠ OrderStatusType.canceled := by
  refine ⟨?_, ?_, by decide⟩ <;>
    simp +decide [onCandle, processOrderAt, cancelSibling, updateAveragePrice,
      createOrderOCO, validateFunds, ensureAsset, nextID, saqBTC, usdtWallet,
      emptyWallet, aset, qset, cset, zeroCandle, recordEquity, List.range_succ]

/-- **C6** — amended.  Restricted to sell-side OCO pairs the claim
holds, universally: for every resting OCO pair shaped as the engine
creates it — two status-`new` sell orders of the candle's pair sharing
one group id, with distinct exchange ids, a limit-maker leg and a
stop-loss leg with stop `S` — an incoming candle fills exactly one leg
and cancels the sibling exactly once: the limit-maker leg when
`high ≥ ` its price (even when the stop trigger is also met in the
same candle), otherwise the stop leg when `low ≤ S`; and when neither
condition is met both legs stay `new`. -/
theorem C6_oco_cancellation_sell_only_amended (saq : String → String × String)
    (w : PaperWallet) (o₁ o₂ : Order) (c : Feed.Candle) (g : ℤ) (S : ℚ)
    (horders : w.orders = [o₁, o₂])
    (hside₁ : o₁.side = SideType.sell)
    (hside₂ : o₂.side = SideType.sell)
    (hstatus₁ : o₁.status = OrderStatusType.new)
    (hstatus₂ : o₂.status = OrderStatusType.new)
    (hpair₁ : o₁.pair = c.pair)
    (hpair₂ : o₂.pair = c.pair)
    (hg₁ : o₁.groupID = some g)
    (hg₂ : o₂.groupID = some g)
    (hexch : o₁.exchangeID ≠ o₂.exchangeID)
    (htype₁ : o₁.type = OrderType.limitMaker)
    (htype₂ : o₂.type = OrderType.stopLoss)
    (hstop₂ : o₂.stop = some S) :
    (c.high ≥ o₁.price →
      (onCandle saq w c).orders.map Order.status =
        [OrderStatusType.filled, OrderStatusType.canceled]) ∧
    (¬ c.high ≥ o₁.price → c.low ≤ S →
      (onCandle saq w c).orders.map Order.status =
        [OrderStatusType.canceled, OrderStatusType.filled]) ∧
    (¬ c.high ≥ o₁.price → ¬ c.low ≤ S →
      (onCandle saq w c).orders.map Order.status =
        [OrderStatusType.new, OrderStatusType.new]) := by
  refine ⟨fun h1 => ?_, fun h1 h2 => ?_, fun h1 h2 => ?_⟩
  · simp +decide [onCandle, processOrderAt, cancelSibling, updateAveragePrice,
      ensureAsset, aset, qset, cset, List.range_succ,
      horders, hside₁, hside₂, hstatus₁, hstatus₂, hpair₁, hpair₂,
      hg₁, hg₂, hexch, Ne.symm hexch, htype₁, htype₂, hstop₂, h1,
      recordEquity_orders, apply_ite (List.map Order.status),
      apply_ite PaperWallet.orders]
  · simp +decide [onCandle, processOrderAt, cancelSibling, updateAveragePrice,
      ensureAsset, aset, qset, cset, List.range_succ,
      horders, hside₁, hside₂, hstatus₁, hstatus₂, hpair₁, hpair₂,
      hg₁, hg₂, hexch, Ne.symm hexch, htype₁, htype₂, hstop₂, h1, h2,
      recordEquity_orders, apply_ite (List.map Order.status),
      apply_ite PaperWallet.orders]
  · simp +decide [onCandle, processOrderAt, cancelSibling, updateAveragePrice,
      ensureAsset, aset, qset, cset, List.range_succ,
      horders, hside₁, hside₂, hstatus₁, hstatus₂, hpair₁, hpair₂,
      hg₁, hg₂, hexch, Ne.symm hexch, htype₁, htype₂, hstop₂, h1, h2,
      recordEquity_orders, apply_ite (List.map Order.status),
      apply_ite PaperWallet.orders]

/-- Witness for the amended **C6**: the concrete sell OCO pair
(limit-maker 100 / stop 90) against a candle meeting both trigger
conditions (high 200, low 10) — the limit-maker leg fills and the stop
sibling is canceled exactly once. -/
theorem C6_oco_cancellation_sell_only_amended_witness :
    (onCandle saqBTC ocoWallet ocoCandle).orders.map Order.status =
      [OrderStatusType.filled, OrderStatusType.canceled] :=
  (C6_oco_cancellation_sell_only_amended saqBTC ocoWallet ocoLimitLeg ocoStopLeg
      ocoCandle 1 90 rfl rfl rfl rfl rfl rfl rfl rfl rfl (by decide) rfl rfl rfl).1
    (by norm_num [ocoCandle, ocoLimitLeg])

/-- **C7** — counterexample.  A resting sell stop-loss order with stop
price 90 whose trigger is met (candle low 10 ≤ 90) ends `canceled`, not
`filled`: it is the stop leg of an OCO pair whose limit-maker sibling
fills first in the same candle.  The claim's "fills iff low ≤ S" is
therefore false for grouped orders. -/
theorem C7_grouped_stop_canceled_despite_trigger :
    ((onCandle saqBTC
        (createOrderOCO saqBTC btcWallet SideType.sell "BTCUSDT" 1 100 90 89).1
        ⟨"BTCUSDT", 1000, 1000, 0, 95, 10, 200, 0, false, []⟩).orders).map
        (fun o => (o.type, o.stop, o.status)) =
      [(OrderType.limitMaker, none, OrderStatusType.filled),
        (OrderType.stopLoss, some 90, OrderStatusType.canceled)] ∧
    ((10 : ℚ) ≤ 90 ∧ OrderStatusType.canceled ≠ OrderStatusType.filled) := by
  refine ⟨?_, by norm_num, by decide⟩
  simp +decide [onCandle, processOrderAt, cancelSibling, updateAveragePrice,
    createOrderOCO, validateFunds, ensureAsset, nextID, saqBTC, btcWallet,
    emptyWallet, aset, qset, cset, zeroCandle, recordEquity, List.range_succ]
  norm_num +decide [aset, qset, cset]

/-- **C7** — amended.  For an ungrouped resting sell stop / stop-limit
order with stop `S` (alone in the book, distinct asset and quote), an
incoming candle of its pair fills it iff `low ≤ S`; on a fill the
volume accrues `quantity·S`, the quote balance is credited
`quantity·S` and the locked base balance shrinks by the quantity, and
with no fill the book, volume and balances are untouched.
Symmetrically, a resting buy limit at `P` never fills on a candle
whose close exceeds `P`. -/
theorem C7_sell_stop_matching_amended (saq : String → String × String)
    (w : PaperWallet) (o : Order) (c : Feed.Candle) (S : ℚ)
    (w' : PaperWallet) (o' : Order) (c' : Feed.Candle) (P : ℚ)
    (horders : w.orders = [o])
    (hside : o.side = SideType.sell)
    (htype : o.type = OrderType.stopLoss ∨ o.type = OrderType.stopLossLimit)
    (hstop : o.stop = some S)
    (hstatus : o.status = OrderStatusType.new)
    (hpair : o.pair = c.pair)
    (hgroup : o.groupID = none)
    (hne : (saq c.pair).1 ≠ (saq c.pair).2)
    (horders' : w'.orders = [o'])
    (hside' : o'.side = SideType.buy)
    (hprice' : o'.price = P)
    (hstatus' : o'.status = OrderStatusType.new)
    (hpair' : o'.pair = c'.pair)
    (hclose' : P < c'.close) :
    ((((onCandle saq w c).orders.getD 0 default).status = OrderStatusType.filled
        ↔ c.low ≤ S) ∧
      (c.low ≤ S →
        (onCandle saq w c).volume c.pair = w.volume c.pair + o.quantity * S ∧
        ((onCandle saq w c).assets (saq o.pair).2).free =
          (w.assets (saq o.pair).2).free + o.quantity * S ∧
        ((onCandle saq w c).assets (saq o.pair).1).lock =
          (w.assets (saq o.pair).1).lock - o.quantity) ∧
      (¬ c.low ≤ S →
        ((onCandle saq w c).orders.getD 0 default).status = OrderStatusType.new ∧
        (onCandle saq w c).volume c.pair = w.volume c.pair ∧
        (onCandle saq w c).assets = w.assets)) ∧
    ((onCandle saq w' c').orders.getD 0 default).status = OrderStatusType.new := by
  constructor
  · by_cases hls : c.low ≤ S <;>
      rcases htype with ht | ht <;>
        simp +decide [onCandle, processOrderAt, cancelSibling, updateAveragePrice,
          ensureAsset, aset, qset, cset, List.range_succ, recordEquity,
          horders, hside, ht, hstop, hstatus, hpair, hgroup, hls, hne, Ne.symm hne,
          apply_ite PaperWallet.orders, apply_ite PaperWallet.volume,
          apply_ite PaperWallet.assets]
  · have hnotge : ¬ o'.price ≥ c'.close := by rw [hprice']; exact not_le.mpr hclose'
    simp +decide [onCandle, processOrderAt, cancelSibling, updateAveragePrice,
      ensureAsset, aset, qset, cset, List.range_succ, recordEquity,
      horders', hside', hstatus', hpair', hnotge,
      apply_ite PaperWallet.orders,
      apply_ite (fun l => List.getD l 0 (default : Order)),
      apply_ite Order.status]

/-- Witness for the amended **C7**: a sell stop-loss at 90 (quantity 2)
against a candle with low 80, and a buy limit at 100 against a candle
with close 150. -/
theorem C7_sell_stop_matching_amended_witness :
    ((((onCandle saqBTC
          { btcWallet with orders := [⟨1, 1, "BTCUSDT", SideType.sell,
              OrderType.stopLoss, OrderStatusType.new, 90, 2, 0, 0, some 90,
              none, 0, 0, 0⟩] }
          ⟨"BTCUSDT", 1000, 1000, 0, 95, 80, 96, 0, false, []⟩).orders.getD 0
            default).status = OrderStatusType.filled ↔ (80 : ℚ) ≤ 90) ∧
      ((80 : ℚ) ≤ 90 →
        (onCandle saqBTC
          { btcWallet with orders := [⟨1, 1, "BTCUSDT", SideType.sell,
              OrderType.stopLoss, OrderStatusType.new, 90, 2, 0, 0, some 90,
              none, 0, 0, 0⟩] }
          ⟨"BTCUSDT", 1000, 1000, 0, 95, 80, 96, 0, false, []⟩).volume "BTCUSDT" =
          { btcWallet with orders := [⟨1, 1, "BTCUSDT", SideType.sell,
              OrderType.stopLoss, OrderStatusType.new, 90, 2, 0, 0, some 90,
              none, 0, 0, 0⟩] : PaperWallet }.volume "BTCUSDT" + 2 * 90 ∧
        ((onCandle saqBTC
          { btcWallet with orders := [⟨1, 1, "BTCUSDT", SideType.sell,
              OrderType.stopLoss, OrderStatusType.new, 90, 2, 0, 0, some 90,
              none, 0, 0, 0⟩] }
          ⟨"BTCUSDT", 1000, 1000, 0, 95, 80, 96, 0, false, []⟩).assets
            (saqBTC "BTCUSDT").2).free =
          ({ btcWallet with orders := [⟨1, 1, "BTCUSDT", SideType.sell,
              OrderType.stopLoss, OrderStatusType.new, 90, 2, 0, 0, some 90,
              none, 0, 0, 0⟩] : PaperWallet }.assets (saqBTC "BTCUSDT").2).free
            + 2 * 90 ∧
        ((onCandle saqBTC
          { btcWallet with orders := [⟨1, 1, "BTCUSDT", SideType.sell,
              OrderType.stopLoss, OrderStatusType.new, 90, 2, 0, 0, some 90,
              none, 0, 0, 0⟩] }
          ⟨"BTCUSDT", 1000, 1000, 0, 95, 80, 96, 0, false, []⟩).assets
            (saqBTC "BTCUSDT").1).lock =
          ({ btcWallet with orders := [⟨1, 1, "BTCUSDT", SideType.sell,
              OrderType.stopLoss, OrderStatusType.new, 90, 2, 0, 0, some 90,
              none, 0, 0, 0⟩] : PaperWallet }.assets (saqBTC "BTCUSDT").1).lock
            - 2) ∧
      (¬ (80 : ℚ) ≤ 90 →
        ((onCandle saqBTC
          { btcWallet with orders := [⟨1, 1, "BTCUSDT", SideType.sell,
              OrderType.stopLoss, OrderStatusType.new, 90, 2, 0, 0, some 90,
              none, 0, 0, 0⟩] }
          ⟨"BTCUSDT", 1000, 1000, 0, 95, 80, 96, 0, false, []⟩).orders.getD 0
            default).status = OrderStatusType.new ∧
        (onCandle saqBTC
          { btcWallet with orders := [⟨1, 1, "BTCUSDT", SideType.sell,
              OrderType.stopLoss, OrderStatusType.new, 90, 2, 0, 0, some 90,
              none, 0, 0, 0⟩] }
          ⟨"BTCUSDT", 1000, 1000, 0, 95, 80, 96, 0, false, []⟩).volume "BTCUSDT" =
          { btcWallet with orders := [⟨1, 1, "BTCUSDT", SideType.sell,
              OrderType.stopLoss, OrderStatusType.new, 90, 2, 0, 0, some 90,
              none, 0, 0, 0⟩] : PaperWallet }.volume "BTCUSDT" ∧
        (onCandle saqBTC
          { btcWallet with orders := [⟨1, 1, "BTCUSDT", SideType.sell,
              OrderType.stopLoss, OrderStatusType.new, 90, 2, 0, 0, some 90,
              none, 0, 0, 0⟩] }
          ⟨"BTCUSDT", 1000, 1000, 0, 95, 80, 96, 0, false, []⟩).assets =
          { btcWallet with orders := [⟨1, 1, "BTCUSDT", SideType.sell,
              OrderType.stopLoss, OrderStatusType.new, 90, 2, 0, 0, some 90,
              none, 0, 0, 0⟩] : PaperWallet }.assets)) ∧
    ((onCandle saqBTC
        { usdtWallet with orders := [⟨2, 2, "BTCUSDT", SideType.buy,
            OrderType.limit, OrderStatusType.new, 100, 1, 0, 0, none, none,
            0, 0, 0⟩] }
        ⟨"BTCUSDT", 1000, 1000, 0, 150, 140, 160, 0, false, []⟩).orders.getD 0
          default).status = OrderStatusType.new :=
  C7_sell_stop_matching_amended saqBTC
    { btcWallet with orders := [⟨1, 1, "BTCUSDT", SideType.sell,
        OrderType.stopLoss, OrderStatusType.new, 90, 2, 0, 0, some 90,
        none, 0, 0, 0⟩] }
    ⟨1, 1, "BTCUSDT", SideType.sell, OrderType.stopLoss, OrderStatusType.new,
      90, 2, 0, 0, some 90, none, 0, 0, 0⟩
    ⟨"BTCUSDT", 1000, 1000, 0, 95, 80, 96, 0, false, []⟩ 90
    { usdtWallet with orders := [⟨2, 2, "BTCUSDT", SideType.buy,
        OrderType.limit, OrderStatusType.new, 100, 1, 0, 0, none, none,
        0, 0, 0⟩] }
    ⟨2, 2, "BTCUSDT", SideType.buy, OrderType.limit, OrderStatusType.new,
      100, 1, 0, 0, none, none, 0, 0, 0⟩
    ⟨"BTCUSDT", 1000, 1000, 0, 150, 140, 160, 0, false, []⟩ 100
    rfl rfl (Or.inl rfl) rfl rfl rfl rfl (by simp [saqBTC])
    rfl rfl rfl rfl rfl (by norm_num)

end Wallet

end JacobBot
